import Mathlib

/-!
 Verification of the ReadySet (noria) control-plane specification against the
 sources of the repository.

 Every definition below is a shallow embedding of a function of the source tree
 (file and line references are given on each definition).  Machine integers are
 embedded as `Int` with explicit wrapping where the Rust code can overflow
 (release-mode wrapping semantics); fallible Rust code becomes `Except`;
 Rust panics become an explicit `panicked` error value.  Types whose defining
 module is not part of the sampled sources (for example `ReplicationOffset`,
 which the spec describes as an opaque totally-ordered token) are modelled
 from the spec and marked as such in their doc comments.
-/

/- ------------------------------------------------------------------ -/
/- Value model: noria/noria/src/data.rs                                -/
/- ------------------------------------------------------------------ -/

/-- Embedding of `DataType` (noria/noria/src/data.rs, lines 29-49).
`Int`/`UnsignedInt` are the 32-bit variants, `BigInt`/`UnsignedBigInt` the
64-bit ones; payloads are mathematical integers (widening conversions in the
source are exact, wrapping is made explicit at the arithmetic operations).
`Text` is the refcounted string, `TinyText` the 15-byte inlined string; both
are embedded by their byte content (the source compares the nul-padded
`[u8; 15]` of a `TinyText` bytewise, which agrees with bytewise comparison of
the content for nul-free strings).  `Timestamp` is embedded as the integer
timeline value of the `NaiveDateTime`. -/
inductive DataType where
  | none
  | Int (v : Int)
  | UnsignedInt (v : Int)
  | BigInt (v : Int)
  | UnsignedBigInt (v : Int)
  | Real (i : Int) (f : Int)
  | Text (s : String)
  | TinyText (s : String)
  | Timestamp (t : Int)
deriving DecidableEq, Repr

/-- Embedding of `<DataType as Ord>::cmp` (noria/noria/src/data.rs, lines
212-260).  The arm order mirrors the source exactly; the final five arms are
the source's cross-family catch-all arms, each of which returns
`Ordering::Greater`. -/
def DataType.cmp : DataType → DataType → Ordering
  | .Text a, .Text b => compare a b
  | .TinyText a, .TinyText b => compare a b
  | .Text a, .TinyText b => compare a b
  | .TinyText a, .Text b => compare a b
  | .BigInt a, .BigInt b => compare a b
  | .UnsignedBigInt a, .UnsignedBigInt b => compare a b
  | .Int a, .Int b => compare a b
  | .UnsignedInt a, .UnsignedInt b => compare a b
  | .BigInt a, .Int b => compare a b
  | .Int a, .BigInt b => compare a b
  | .BigInt a, .UnsignedInt b => compare a b
  | .UnsignedInt a, .BigInt b => compare a b
  | .BigInt a, .UnsignedBigInt b => compare a b
  | .UnsignedBigInt a, .BigInt b => compare a b
  | .UnsignedBigInt a, .UnsignedInt b => compare a b
  | .UnsignedInt a, .UnsignedBigInt b => compare a b
  | .Int a, .UnsignedBigInt b => compare a b
  | .UnsignedBigInt a, .Int b => compare a b
  | .UnsignedInt a, .Int b => compare a b
  | .Int a, .UnsignedInt b => compare a b
  | .Real ai af, .Real bi bf => (compare ai bi).then (compare af bf)
  | .Timestamp a, .Timestamp b => compare a b
  | .none, .none => .eq
  | .Int _, _ => .gt
  | .UnsignedInt _, _ => .gt
  | .BigInt _, _ => .gt
  | .UnsignedBigInt _, _ => .gt
  | .Real _ _, _ => .gt
  | .Text _, _ => .gt
  | .TinyText _, _ => .gt
  | .Timestamp _, _ => .gt
  | .none, _ => .gt

/-- The family of a `DataType` value in the sense of the spec order
`Numeric < FixedPoint < Text < Timestamp < NULL`: 0 = numeric integer,
1 = fixed point, 2 = text, 3 = timestamp, 4 = NULL. -/
def DataType.family : DataType → Nat
  | .Int _ | .UnsignedInt _ | .BigInt _ | .UnsignedBigInt _ => 0
  | .Real _ _ => 1
  | .Text _ | .TinyText _ => 2
  | .Timestamp _ => 3
  | .none => 4

/-- C2: the comparison function `DataType::cmp` is NOT a total order.  For
every pair of values from distinct families the source's catch-all arms
return `Ordering::Greater` regardless of which side is which, so the claimed
family order `Numeric < FixedPoint < Text < Timestamp < NULL` (and
antisymmetry) fails: `cmp a b = Greater` and `cmp b a = Greater` whenever the
families differ.  In particular `cmp (Int 0) (Real 0 0) = Greater` and
`cmp (Real 0 0) (Int 0) = Greater`. -/
theorem C2_cmp_cross_family_always_gt (a b : DataType)
    (h : a.family ≠ b.family) : a.cmp b = .gt := by
  cases a <;> cases b <;> first
    | rfl
    | exact absurd rfl h

/-- Witness for `C2_cmp_cross_family_always_gt`: evaluated at the concrete
failing input `(Int 0, Real 0 0)`, in both orders, the comparison returns
`Greater` both ways, contradicting antisymmetry. -/
theorem C2_cmp_cross_family_always_gt_witness :
    DataType.cmp (.Int 0) (.Real 0 0) = .gt ∧
      DataType.cmp (.Real 0 0) (.Int 0) = .gt :=
  ⟨C2_cmp_cross_family_always_gt (.Int 0) (.Real 0 0) (by decide),
   C2_cmp_cross_family_always_gt (.Real 0 0) (.Int 0) (by decide)⟩

/- ------------------------------------------------------------------ -/
/- Arithmetic on DataType: noria/noria/src/data.rs, lines 664-737      -/
/- ------------------------------------------------------------------ -/

/-- Outcome of an operation that can panic.  The Rust macro
`arithmetic_operation!` panics (`panic!("can't {} a {:?} and {:?}", ..)`) on
every operand combination it does not handle; it never constructs a
`TypeMismatch` error.  The `typeMismatch` constructor exists so that the
spec's claimed behaviour is statable. -/
inductive ArithError where
  | panicked
  | typeMismatch
deriving DecidableEq, Repr

/-- The four arithmetic operations of data.rs lines 707-737. -/
inductive ArithOp where
  | add
  | sub
  | mul
  | div
deriving DecidableEq, Repr

/-- Two-sided wrap of an integer into the signed `w`-bit range
(release-mode wrapping semantics of Rust integer arithmetic). -/
def wrapSigned (w : Nat) (x : Int) : Int :=
  (x + 2 ^ (w - 1)) % 2 ^ w - 2 ^ (w - 1)

/-- Wrap of an integer into the unsigned `w`-bit range. -/
def wrapUnsigned (w : Nat) (x : Int) : Int := x % 2 ^ w

/-- Signed machine arithmetic at width `w`: wrapping `+`, `-`, `*`;
division is truncated (`Int.tdiv`, matching Rust `/`) and panics on a zero
divisor or on the `MIN / -1` overflow, as Rust division does. -/
def signedMachineOp (w : Nat) (op : ArithOp) (a b : Int) : Except ArithError Int :=
  match op with
  | .add => .ok (wrapSigned w (a + b))
  | .sub => .ok (wrapSigned w (a - b))
  | .mul => .ok (wrapSigned w (a * b))
  | .div =>
    if b = 0 ∨ (a = -(2 ^ (w - 1)) ∧ b = -1) then .error .panicked
    else .ok (Int.tdiv a b)

/-- Unsigned machine arithmetic at width `w`: wrapping `+`, `-`, `*`;
division panics on a zero divisor. -/
def unsignedMachineOp (w : Nat) (op : ArithOp) (a b : Int) : Except ArithError Int :=
  match op with
  | .add => .ok (wrapUnsigned w (a + b))
  | .sub => .ok (wrapUnsigned w (a - b))
  | .mul => .ok (wrapUnsigned w (a * b))
  | .div => if b = 0 then .error .panicked else .ok (Int.tdiv a b)

/-- Embedding of `impl From<i128> for DataType` (data.rs lines 302-316):
dispatch on the magnitude, panicking when the value fits in none of the four
integer variants. -/
def DataType.fromI128 (s : ℤ) : Except ArithError DataType :=
  if -(2 ^ 31) ≤ s ∧ s ≤ 2 ^ 31 - 1 then .ok (.Int s)
  else if 0 ≤ s ∧ s ≤ 2 ^ 32 - 1 then .ok (.UnsignedInt s)
  else if -(2 ^ 63) ≤ s ∧ s ≤ 2 ^ 63 - 1 then .ok (.BigInt s)
  else if 0 ≤ s ∧ s ≤ 2 ^ 64 - 1 then .ok (.UnsignedBigInt s)
  else .error .panicked

/-- Truncation toward zero of a rational, like Rust `f64::trunc`. -/
def ratTrunc (q : ℚ) : Int := if q < 0 then -(Int.floor (-q)) else Int.floor q

/-- Rounding to the nearest integer with ties away from zero, like Rust
`f64::round`. -/
def ratRound (q : ℚ) : Int :=
  if q < 0 then -(Int.floor (-q + 1 / 2)) else Int.floor (q + 1 / 2)

/-- Embedding of `impl From<&DataType> for f64` (data.rs lines 587-598) for
the numeric variants, with the binary floating-point value abstracted as the
exact rational it approximates. -/
def DataType.toRat : DataType → ℚ
  | .Real i f => (i : ℚ) + (f : ℚ) / 1000000000
  | .UnsignedInt i => (i : ℚ)
  | .Int i => (i : ℚ)
  | .UnsignedBigInt i => (i : ℚ)
  | .BigInt i => (i : ℚ)
  | _ => 0

/-- Embedding of `impl From<f64> for DataType` (data.rs lines 354-372) over
the exact-rational abstraction of `f64`: truncate, scale the fractional part
by `1e9`, round to nearest, propagate a carry.  The `f.trunc() as i64` cast
saturates at the `i64` bounds as Rust float-to-int casts do. -/
def DataType.fromRat (q : ℚ) : DataType :=
  let i0 := max (-(2 ^ 63)) (min (2 ^ 63 - 1) (ratTrunc q))
  let frac := ratRound ((q - ratTrunc q) * 1000000000)
  if frac = 1000000000 then .Real (i0 + 1) 0
  else if frac = -1000000000 then .Real (i0 - 1) 0
  else .Real i0 frac

/-- The floating-point arm of `arithmetic_operation!` (data.rs lines
682-694): convert both operands, operate, convert back.  A zero divisor makes
the `f64` result non-finite, which `From<f64> for DataType` turns into a
panic (data.rs lines 356-358). -/
def realArithOp (op : ArithOp) (a b : DataType) : Except ArithError DataType :=
  let qa := a.toRat
  let qb := b.toRat
  match op with
  | .add => .ok (DataType.fromRat (qa + qb))
  | .sub => .ok (DataType.fromRat (qa - qb))
  | .mul => .ok (DataType.fromRat (qa * qb))
  | .div => if qb = 0 then .error .panicked else .ok (DataType.fromRat (qa / qb))

/-- Embedding of the `arithmetic_operation!` macro (data.rs lines 664-705),
the shared body of `Add`/`Sub`/`Mul`/`Div` for `&DataType` (lines 707-737).
Arms are in source order: NULL absorbs; same-width pairs use that width's
machine arithmetic; `Int`/`BigInt` mixes widen to `i64`; mixes involving
`UnsignedBigInt` with a signed operand widen to `i128` whose result is
re-dispatched by magnitude (`From<i128>`); `UnsignedBigInt`/`UnsignedInt`
mixes widen to `u64`; any operand pairing with a `Real` goes through `f64`;
every remaining combination hits the `panic!` arm — including the
`Int`/`UnsignedInt`, `UnsignedInt`/`Int`, `UnsignedInt`/`BigInt` and
`BigInt`/`UnsignedInt` numeric mixes, which no arm of the macro handles. -/
def arithmeticOperation (op : ArithOp) : DataType → DataType → Except ArithError DataType
  | .none, _ => .ok .none
  | _, .none => .ok .none
  | .Int a, .Int b => (signedMachineOp 32 op a b).map .Int
  | .UnsignedInt a, .UnsignedInt b => (unsignedMachineOp 32 op a b).map .UnsignedInt
  | .BigInt a, .BigInt b => (signedMachineOp 64 op a b).map .BigInt
  | .UnsignedBigInt a, .UnsignedBigInt b => (unsignedMachineOp 64 op a b).map .UnsignedBigInt
  | .Int a, .BigInt b => (signedMachineOp 64 op a b).map .BigInt
  | .BigInt a, .Int b => (signedMachineOp 64 op a b).map .BigInt
  | .Int a, .UnsignedBigInt b => signedMachineOp 128 op a b >>= DataType.fromI128
  | .UnsignedBigInt a, .Int b => signedMachineOp 128 op a b >>= DataType.fromI128
  | .BigInt a, .UnsignedBigInt b => signedMachineOp 128 op a b >>= DataType.fromI128
  | .UnsignedBigInt a, .BigInt b => signedMachineOp 128 op a b >>= DataType.fromI128
  | .UnsignedBigInt a, .UnsignedInt b => (unsignedMachineOp 64 op a b).map .UnsignedBigInt
  | .UnsignedInt a, .UnsignedBigInt b => (unsignedMachineOp 64 op a b).map .UnsignedBigInt
  | a@(.Int _), b@(.Real _ _) => realArithOp op a b
  | a@(.BigInt _), b@(.Real _ _) => realArithOp op a b
  | a@(.UnsignedInt _), b@(.Real _ _) => realArithOp op a b
  | a@(.UnsignedBigInt _), b@(.Real _ _) => realArithOp op a b
  | a@(.Real _ _), b@(.Int _) => realArithOp op a b
  | a@(.Real _ _), b@(.BigInt _) => realArithOp op a b
  | a@(.Real _ _), b@(.UnsignedInt _) => realArithOp op a b
  | a@(.Real _ _), b@(.UnsignedBigInt _) => realArithOp op a b
  | a@(.Real _ _), b@(.Real _ _) => realArithOp op a b
  | _, _ => .error .panicked

/-- The operand pairings that reach an arithmetic arm of the macro (everything
the spec's widening table covers minus the four signed/unsigned mixes the
macro forgot). -/
def coveredNumericPair : DataType → DataType → Bool
  | .Int _, .Int _ | .UnsignedInt _, .UnsignedInt _
  | .BigInt _, .BigInt _ | .UnsignedBigInt _, .UnsignedBigInt _
  | .Int _, .BigInt _ | .BigInt _, .Int _
  | .Int _, .UnsignedBigInt _ | .UnsignedBigInt _, .Int _
  | .BigInt _, .UnsignedBigInt _ | .UnsignedBigInt _, .BigInt _
  | .UnsignedBigInt _, .UnsignedInt _ | .UnsignedInt _, .UnsignedBigInt _
  | .Int _, .Real _ _ | .BigInt _, .Real _ _
  | .UnsignedInt _, .Real _ _ | .UnsignedBigInt _, .Real _ _
  | .Real _ _, .Int _ | .Real _ _, .BigInt _
  | .Real _ _, .UnsignedInt _ | .Real _ _, .UnsignedBigInt _
  | .Real _ _, .Real _ _ => true
  | _, _ => false


lemma signedMachineOp_ne_tm (w : Nat) (op : ArithOp) (a b : Int) :
    signedMachineOp w op a b ≠ .error .typeMismatch := by
  cases op <;> simp only [signedMachineOp] <;> (try split) <;> simp

lemma unsignedMachineOp_ne_tm (w : Nat) (op : ArithOp) (a b : Int) :
    unsignedMachineOp w op a b ≠ .error .typeMismatch := by
  cases op <;> simp only [unsignedMachineOp] <;> (try split) <;> simp

lemma fromI128_ne_tm (s : ℤ) : DataType.fromI128 s ≠ .error .typeMismatch := by
  simp only [DataType.fromI128]
  split
  · simp
  · split
    · simp
    · split
      · simp
      · split <;> simp

lemma realArithOp_ne_tm (op : ArithOp) (a b : DataType) :
    realArithOp op a b ≠ .error .typeMismatch := by
  cases op <;> simp only [realArithOp] <;> (try split) <;> simp

lemma exceptMap_ne_tm {x : Except ArithError ℤ} {f : ℤ → DataType}
    (h : x ≠ .error .typeMismatch) : x.map f ≠ .error .typeMismatch := by
  cases x with
  | ok v => simp [Except.map]
  | error e =>
    intro hc
    have he : e = ArithError.typeMismatch := by
      simpa [Except.map] using hc
    exact h (by rw [he])

lemma exceptBind_ne_tm {x : Except ArithError ℤ}
    {f : ℤ → Except ArithError DataType} (h : x ≠ .error .typeMismatch)
    (hf : ∀ v, f v ≠ .error .typeMismatch) : (x >>= f) ≠ .error .typeMismatch := by
  cases x with
  | ok v => exact fun hc => hf v hc
  | error e =>
    intro hc
    have he : e = ArithError.typeMismatch := by
      have hx : (Except.error e : Except ArithError DataType) =
          .error .typeMismatch := hc
      simpa using hx
    exact h (by rw [he])

/-- C5 counterexample: the claim says every non-numeric, non-NULL operand
combination fails with a `TypeMismatch` error, and that every pair of numeric
variants is defined via the widening rules.  At the concrete inputs
`Text "ab" + Int 1` and `Int 1 + UnsignedInt 1` the macro instead hits its
`panic!` arm: the result is a panic, which is not a `TypeMismatch` error. -/
theorem C5_arithmetic_counterexample :
    arithmeticOperation .add (.Text "ab") (.Int 1) = .error .panicked ∧
      arithmeticOperation .add (.Int 1) (.UnsignedInt 1) = .error .panicked ∧
      ArithError.panicked ≠ ArithError.typeMismatch :=
  ⟨rfl, rfl, by decide⟩

/-- C5 (amended): for every pair of `DataType` operands and each of the four
arithmetic operations, if either operand is NULL the result is NULL; every
combination of variants outside the macro's widening arms — including the
`Int`/`UnsignedInt` and `UnsignedInt`/`BigInt` signed/unsigned mixes —
panics; and no combination whatsoever produces a `TypeMismatch` error. -/
theorem C5_arithmetic_null_and_panic (op : ArithOp) (a b : DataType) :
    ((a = .none ∨ b = .none) → arithmeticOperation op a b = .ok .none) ∧
      (a ≠ .none → b ≠ .none → coveredNumericPair a b = false →
        arithmeticOperation op a b = .error .panicked) ∧
      arithmeticOperation op a b ≠ .error .typeMismatch := by
  refine ⟨?_, ?_, ?_⟩
  · rintro (rfl | rfl)
    · cases b <;> rfl
    · cases a <;> rfl
  · intro ha hb hcov
    cases a <;> cases b <;> first
      | exact absurd rfl ha
      | exact absurd rfl hb
      | rfl
      | simp [coveredNumericPair] at hcov
  · cases a <;> cases b <;>
      simp only [arithmeticOperation] <;>
        first
          | exact exceptMap_ne_tm (signedMachineOp_ne_tm _ _ _ _)
          | exact exceptMap_ne_tm (unsignedMachineOp_ne_tm _ _ _ _)
          | exact exceptBind_ne_tm (signedMachineOp_ne_tm _ _ _ _) fromI128_ne_tm
          | exact realArithOp_ne_tm _ _ _
          | simp

/-- Witness for `C5_arithmetic_null_and_panic`: at the concrete input
`Timestamp 0 - BigInt 7` (a non-NULL combination outside the widening arms)
the operation panics. -/
theorem C5_arithmetic_null_and_panic_witness :
    arithmeticOperation .sub (.Timestamp 0) (.BigInt 7) = .error .panicked :=
  (C5_arithmetic_null_and_panic .sub (.Timestamp 0) (.BigInt 7)).2.1
    (by decide) (by decide) (by decide)

/- ------------------------------------------------------------------ -/
/- Replication offsets and the Leader offset query                     -/
/- noria/server/src/controller/inner.rs, lines 1752-1806               -/
/- ------------------------------------------------------------------ -/

/-- Modelled from the spec: `ReplicationOffset` is "an opaque totally-ordered
token" (spec §3, Replication offset); its type lives in the `noria`
crate module `replication`, which is not part of the sampled sources.
Embedded as a natural number. -/
abbrev ReplicationOffset := Nat

/-- Modelled from the spec: `ReplicationOffset::try_max_into(self, &mut other)`
replaces `other` with the maximum of the two offsets (the source can also
fail when two offsets come from different replication logs; the spec models
offsets as totally ordered, so that failure cannot occur here). -/
def tryMaxInto (off : ReplicationOffset) (acc : Option ReplicationOffset) :
    Option ReplicationOffset :=
  match acc with
  | none => some off
  | some a => some (max a off)

/-- The error kinds of `ReadySetError` used by the embedded functions
(noria design-level taxonomy, spec §7). -/
inductive ReadySetError where
  | NoQuorum
  | UnknownEndpoint
  | NoSuchDomain (domain_index : Nat) (shard : Nat)
  | RecipeInvariantViolated (msg : String)
  | Unsupported (msg : String)
  | Internal (msg : String)
  | ReplicationFailed (msg : String)
  | TableNotFound (name : String)
  | other (msg : String)
deriving DecidableEq, Repr

/-- The slice of the `Leader` state read by `Leader::replication_offset`
(inner.rs lines 65-108): the base tables (`inputs()`, a map from table name
to node, here paired directly with the node's domain index), the registered
domain handles with the per-shard `RequestReplicationOffset` responses their
shards would report, and the Leader's stored schema replication offset. -/
structure LeaderOffsets where
  inputs : List (String × Nat)
  domains : List (Nat × List (Option ReplicationOffset))
  replication_offset : Option ReplicationOffset

/-- Embedding of `Leader::replication_offset` (inner.rs lines 1757-1806):
collect the distinct domains of all base tables (a `HashSet`, embedded as
`dedup`), fail with `NoSuchDomain` if any is unregistered, then fold: the
accumulator starts from the Leader's stored `replication_offset`, and for
every domain the flattened per-shard offsets chained with the accumulator
are re-folded from `None` with `try_max_into` — i.e. a maximum. -/
def LeaderOffsets.replicationOffset (l : LeaderOffsets) :
    Except ReadySetError (Option ReplicationOffset) :=
  let ds := (l.inputs.map Prod.snd).dedup
  match ds.find? (fun d => (l.domains.lookup d).isNone) with
  | some d => .error (.NoSuchDomain d 0)
  | none =>
    .ok (ds.foldl
      (fun acc d =>
        ((((l.domains.lookup d).getD []).filterMap id) ++ acc.toList).foldl
          (fun o1 o2 => tryMaxInto o2 o1) none)
      l.replication_offset)

/-- All per-shard base-table offsets the Leader observes through the domain
RPCs (the `Some` responses, across the distinct base domains). -/
def LeaderOffsets.observedOffsets (l : LeaderOffsets) : List ReplicationOffset :=
  (((l.inputs.map Prod.snd).dedup).map
    (fun d => ((l.domains.lookup d).getD []).filterMap id)).flatten

lemma tryMaxInto_isSome (off : ReplicationOffset) (acc : Option ReplicationOffset) :
    ∃ m, tryMaxInto off acc = some m ∧ off ≤ m ∧ ∀ s, acc = some s → s ≤ m := by
  cases acc with
  | none => exact ⟨off, rfl, le_refl _, by simp⟩
  | some a =>
    refine ⟨max a off, rfl, le_max_right _ _, ?_⟩
    intro s hs
    cases hs
    exact le_max_left _ _

lemma maxFold_spec (xs : List ReplicationOffset) (seed : Option ReplicationOffset) :
    (∀ x ∈ xs ++ seed.toList,
        ∃ m, xs.foldl (fun o1 o2 => tryMaxInto o2 o1) seed = some m ∧ x ≤ m) ∧
      (xs.foldl (fun o1 o2 => tryMaxInto o2 o1) seed = none ↔
        xs = [] ∧ seed = none) := by
  induction xs generalizing seed with
  | nil =>
    constructor
    · intro x hx
      cases seed with
      | none => simp at hx
      | some s =>
        simp at hx
        exact ⟨s, rfl, le_of_eq hx⟩
    · simp
  | cons y ys ih =>
    obtain ⟨m0, hm0, hym0, hprop⟩ := tryMaxInto_isSome y seed
    constructor
    · intro x hx
      have step : List.foldl (fun o1 o2 => tryMaxInto o2 o1) seed (y :: ys) =
          List.foldl (fun o1 o2 => tryMaxInto o2 o1) (tryMaxInto y seed) ys := rfl
      rw [step, hm0]
      have base := (ih (some m0)).1
      rcases List.mem_append.mp hx with hx' | hseed
      · rcases List.mem_cons.mp hx' with rfl | hys
        · obtain ⟨m, hm, hle⟩ := base m0 (by simp)
          exact ⟨m, hm, le_trans hym0 hle⟩
        · exact base x (by simp [hys])
      · have hx0 : seed = some x := by
          cases seed <;> simp_all
        obtain ⟨m, hm, hle⟩ := base m0 (by simp)
        exact ⟨m, hm, le_trans (hprop x hx0) hle⟩
    · have step : List.foldl (fun o1 o2 => tryMaxInto o2 o1) seed (y :: ys) =
          List.foldl (fun o1 o2 => tryMaxInto o2 o1) (tryMaxInto y seed) ys := rfl
      rw [step, hm0]
      simp [(ih (some m0)).2]

lemma outerFold_spec (offsOf : Nat → List ReplicationOffset) (ds : List Nat)
    (acc : Option ReplicationOffset) :
    (∀ x ∈ (ds.map offsOf).flatten ++ acc.toList,
        ∃ m, ds.foldl
            (fun acc d => ((offsOf d) ++ acc.toList).foldl
              (fun o1 o2 => tryMaxInto o2 o1) none) acc = some m ∧ x ≤ m) ∧
      (ds.foldl
          (fun acc d => ((offsOf d) ++ acc.toList).foldl
            (fun o1 o2 => tryMaxInto o2 o1) none) acc = none ↔
        (ds.map offsOf).flatten = [] ∧ acc = none) := by
  induction ds generalizing acc with
  | nil =>
    constructor
    · intro x hx
      cases acc with
      | none => simp at hx
      | some s =>
        simp at hx
        exact ⟨s, rfl, le_of_eq hx⟩
    · simp
  | cons d ds ih =>
    have inner := maxFold_spec (offsOf d ++ acc.toList) none
    constructor
    · intro x hx
      have step : List.foldl
          (fun acc d => ((offsOf d) ++ acc.toList).foldl
            (fun o1 o2 => tryMaxInto o2 o1) none) acc (d :: ds) =
          List.foldl
            (fun acc d => ((offsOf d) ++ acc.toList).foldl
              (fun o1 o2 => tryMaxInto o2 o1) none)
            ((offsOf d ++ acc.toList).foldl (fun o1 o2 => tryMaxInto o2 o1) none)
            ds := rfl
      rw [step]
      rcases hmem : (offsOf d ++ acc.toList).foldl
          (fun o1 o2 => tryMaxInto o2 o1) none with _ | m0
      · -- the inner fold is none only when there was nothing to fold
        have hemp := inner.2.mp hmem
        have hoffs : offsOf d = [] := (List.append_eq_nil.mp hemp.1).1
        have hacctl : acc.toList = [] := (List.append_eq_nil.mp hemp.1).2
        have haccn : acc = none := by cases acc <;> simp_all
        have hx' : x ∈ (ds.map offsOf).flatten ++
            (none : Option ReplicationOffset).toList := by
          simp only [List.map_cons, List.flatten_cons, List.mem_append] at hx
          rcases hx with (h | h) | h
          · rw [hoffs] at h; simp at h
          · simp [h]
          · rw [haccn] at h; simp at h
        exact (ih none).1 x hx'
      · have base := (ih (some m0)).1
        have inner1 := inner.1
        simp only [List.map_cons, List.flatten_cons, List.mem_append] at hx
        rcases hx with (hd | hrest) | hacc
        · obtain ⟨m', hm', hle'⟩ := inner1 x (by simp [hd])
          rw [hmem] at hm'
          obtain ⟨m, hm, hle⟩ := base m0 (by simp)
          cases hm'
          exact ⟨m, hm, le_trans hle' hle⟩
        · exact base x (by simp [hrest])
        · obtain ⟨m', hm', hle'⟩ := inner1 x (by simp [hacc])
          rw [hmem] at hm'
          obtain ⟨m, hm, hle⟩ := base m0 (by simp)
          cases hm'
          exact ⟨m, hm, le_trans hle' hle⟩
    · have step : List.foldl
          (fun acc d => ((offsOf d) ++ acc.toList).foldl
            (fun o1 o2 => tryMaxInto o2 o1) none) acc (d :: ds) =
          List.foldl
            (fun acc d => ((offsOf d) ++ acc.toList).foldl
              (fun o1 o2 => tryMaxInto o2 o1) none)
            ((offsOf d ++ acc.toList).foldl (fun o1 o2 => tryMaxInto o2 o1) none)
            ds := rfl
      rw [step, (ih _).2, inner.2]
      cases acc with
      | none => simp [and_assoc]; tauto
      | some s => simp

/-- C1 counterexample: the claim says `replication_offset()` returns the
minimum across all base-table offsets (`None` if any base has no offset) and
is ≤ every per-table offset.  With two base tables at offsets 1 and 2 the
source returns the MAXIMUM `Some 2` (its own doc comment at inner.rs
lines 1752-1753 says "Returns the maximum replication offset"), and 2 is not
≤ the observed offset 1. -/
theorem C1_replication_offset_counterexample :
    LeaderOffsets.replicationOffset
        ⟨[("a", 0), ("b", 1)], [(0, [some 1]), (1, [some 2])], none⟩ =
      .ok (some 2) ∧
      1 ∈ LeaderOffsets.observedOffsets
        ⟨[("a", 0), ("b", 1)], [(0, [some 1]), (1, [some 2])], none⟩ ∧
      ¬ ((2 : ReplicationOffset) ≤ 1) := by
  refine ⟨rfl, ?_, by decide⟩
  simp [LeaderOffsets.observedOffsets, List.dedup]

/-- C1 (amended): when every base table's domain is registered,
`Leader::replication_offset` succeeds and returns the MAXIMUM of the
Leader's stored schema offset and all per-shard base-table offsets it
observes; the result is `None` exactly when no offset has been observed and
no schema offset is stored; consequently every observed per-table offset is
≤ the returned value (not ≥, as the spec claims). -/
theorem C1_replication_offset_is_max (l : LeaderOffsets)
    (hdom : ∀ d ∈ l.inputs.map Prod.snd, (l.domains.lookup d).isSome) :
    ∃ r, l.replicationOffset = .ok r ∧
      (∀ off ∈ l.observedOffsets ++ l.replication_offset.toList,
        ∃ m, r = some m ∧ off ≤ m) ∧
      (r = none ↔ l.observedOffsets = [] ∧ l.replication_offset = none) := by
  have hfind : ((l.inputs.map Prod.snd).dedup).find?
      (fun d => (l.domains.lookup d).isNone) = none := by
    rw [List.find?_eq_none]
    intro d hd
    have hs := hdom d (List.mem_dedup.mp hd)
    cases hlk : l.domains.lookup d with
    | none => rw [hlk] at hs; simp at hs
    | some v => simp
  refine ⟨((l.inputs.map Prod.snd).dedup).foldl
      (fun acc d =>
        ((((l.domains.lookup d).getD []).filterMap id) ++ acc.toList).foldl
          (fun o1 o2 => tryMaxInto o2 o1) none)
      l.replication_offset, ?_, ?_, ?_⟩
  · simp only [LeaderOffsets.replicationOffset]
    rw [hfind]
  · intro off hoff
    exact (outerFold_spec (fun d => ((l.domains.lookup d).getD []).filterMap id)
      ((l.inputs.map Prod.snd).dedup) l.replication_offset).1 off hoff
  · exact (outerFold_spec (fun d => ((l.domains.lookup d).getD []).filterMap id)
      ((l.inputs.map Prod.snd).dedup) l.replication_offset).2

/-- Witness for `C1_replication_offset_is_max`: a Leader with one base table
whose domain reports a single shard offset 5 and stored schema offset 3
returns `Some 5`, which dominates both. -/
theorem C1_replication_offset_is_max_witness :
    ∃ r, LeaderOffsets.replicationOffset
        ⟨[("t", 0)], [(0, [some 5, none])], some 3⟩ = .ok r ∧
      (∀ off ∈ LeaderOffsets.observedOffsets
            ⟨[("t", 0)], [(0, [some 5, none])], some 3⟩ ++
          (some 3 : Option ReplicationOffset).toList,
        ∃ m, r = some m ∧ off ≤ m) ∧
      (r = none ↔ LeaderOffsets.observedOffsets
          ⟨[("t", 0)], [(0, [some 5, none])], some 3⟩ = [] ∧
        (some 3 : Option ReplicationOffset) = none) :=
  C1_replication_offset_is_max ⟨[("t", 0)], [(0, [some 5, none])], some 3⟩
    (by decide)

/- ------------------------------------------------------------------ -/
/- Leader::external_request: inner.rs, lines 236-381                   -/
/- ------------------------------------------------------------------ -/

/-- HTTP methods used by the controller RPC surface. -/
inductive Method where
  | GET
  | POST
deriving DecidableEq, Repr

/-- The handler an external request is dispatched to, one constructor per
endpoint of `Leader::external_request` (inner.rs lines 252-379).  The
embedding models dispatch: which handler runs (or which gate error is
returned); the handlers' own bodies are separate operations. -/
inductive Endpoint where
  | simple_graph
  | simple_graphviz
  | graph
  | graphviz
  | get_statistics
  | flushPartial
  | inputs
  | outputs
  | verbose_outputs
  | instances
  | controller_uri
  | workers
  | healthy_workers
  | nodes
  | table_builder
  | view_builder
  | extend_recipe
  | install_recipe
  | remove_query
  | set_replication_offset
  | replicate_readers
  | get_info
  | remove_node
  | replication_offset
deriving DecidableEq, Repr

/-- The slice of the `Leader` state read by the quorum gate of
`external_request` (inner.rs line 268): the number of registered workers,
the quorum target, and whether `pending_recovery` is `Some`. -/
structure GateState where
  workers : Nat
  quorum : Nat
  pending_recovery : Bool
deriving DecidableEq, Repr

/-- Embedding of the dispatch logic of `Leader::external_request` (inner.rs
lines 236-381), as a first-match-wins chain like the source's two `match`
statements.  The first five arms are the methods that do not require a
quorum; then the gate `pending_recovery.is_some() || workers.len() < quorum`
returns `NoQuorum` (inner.rs lines 268-270); then the quorum-gated methods;
unknown paths are `UnknownEndpoint`.  (`Method` models the two HTTP methods
the handled arms use; the `GET | POST` source patterns therefore become a
match on the path alone.) -/
def externalRequest (st : GateState) (method : Method) (path : String) :
    Except ReadySetError Endpoint :=
  if method = .GET ∧ path = "/simple_graph" then .ok .simple_graph
  else if method = .POST ∧ path = "/simple_graphviz" then .ok .simple_graphviz
  else if method = .GET ∧ path = "/graph" then .ok .graph
  else if method = .POST ∧ path = "/graphviz" then .ok .graphviz
  else if path = "/get_statistics" then .ok .get_statistics
  else if st.pending_recovery ∨ st.workers < st.quorum then .error .NoQuorum
  else if method = .GET ∧ path = "/flush_partial" then .ok .flushPartial
  else if method = .POST ∧ path = "/inputs" then .ok .inputs
  else if method = .POST ∧ path = "/outputs" then .ok .outputs
  else if method = .POST ∧ path = "/verbose_outputs" then .ok .verbose_outputs
  else if path = "/instances" then .ok .instances
  else if path = "/controller_uri" then .ok .controller_uri
  else if path = "/workers" then .ok .workers
  else if path = "/healthy_workers" then .ok .healthy_workers
  else if method = .GET ∧ path = "/nodes" then .ok .nodes
  else if method = .POST ∧ path = "/table_builder" then .ok .table_builder
  else if method = .POST ∧ path = "/view_builder" then .ok .view_builder
  else if method = .POST ∧ path = "/extend_recipe" then .ok .extend_recipe
  else if method = .POST ∧ path = "/install_recipe" then .ok .install_recipe
  else if method = .POST ∧ path = "/remove_query" then .ok .remove_query
  else if method = .POST ∧ path = "/set_replication_offset" then
    .ok .set_replication_offset
  else if method = .POST ∧ path = "/replicate_readers" then .ok .replicate_readers
  else if method = .POST ∧ path = "/get_info" then .ok .get_info
  else if method = .POST ∧ path = "/remove_node" then .ok .remove_node
  else if method = .POST ∧ path = "/replication_offset" then .ok .replication_offset
  else .error .UnknownEndpoint

/-- C6: while `pending_recovery` is set or fewer than `quorum` workers are
registered, every graph-mutating or all-worker-dependent request
(`extend_recipe`, `install_recipe`, `remove_query`, `table_builder`,
`view_builder`) fails with `NoQuorum`, whereas the graphviz and statistics
introspection endpoints are dispatched regardless of the gate. -/
theorem C6_quorum_gate (st : GateState)
    (hgate : st.pending_recovery ∨ st.workers < st.quorum) :
    (externalRequest st .POST "/extend_recipe" = .error .NoQuorum ∧
      externalRequest st .POST "/install_recipe" = .error .NoQuorum ∧
      externalRequest st .POST "/remove_query" = .error .NoQuorum ∧
      externalRequest st .POST "/table_builder" = .error .NoQuorum ∧
      externalRequest st .POST "/view_builder" = .error .NoQuorum) ∧
    (∀ st2 : GateState,
      externalRequest st2 .GET "/graph" = .ok .graph ∧
      externalRequest st2 .GET "/simple_graph" = .ok .simple_graph ∧
      externalRequest st2 .POST "/graphviz" = .ok .graphviz ∧
      externalRequest st2 .POST "/simple_graphviz" = .ok .simple_graphviz ∧
      externalRequest st2 .GET "/get_statistics" = .ok .get_statistics ∧
      externalRequest st2 .POST "/get_statistics" = .ok .get_statistics) := by
  refine ⟨?_, ?_⟩
  · refine ⟨?_, ?_, ?_, ?_, ?_⟩ <;>
      simp [externalRequest, hgate]
  · intro st2
    refine ⟨?_, ?_, ?_, ?_, ?_, ?_⟩ <;>
      simp [externalRequest]

/-- Witness for `C6_quorum_gate`: with one worker, quorum two and no pending
recovery, `extend_recipe` is rejected with `NoQuorum` while `graphviz` is
dispatched. -/
theorem C6_quorum_gate_witness :
    externalRequest ⟨1, 2, false⟩ .POST "/extend_recipe" = .error .NoQuorum ∧
      externalRequest ⟨1, 2, false⟩ .POST "/graphviz" = .ok .graphviz :=
  ⟨(C6_quorum_gate ⟨1, 2, false⟩ (by simp)).1.1,
   ((C6_quorum_gate ⟨1, 2, false⟩ (by simp)).2 ⟨1, 2, false⟩).2.2.1⟩

/- ------------------------------------------------------------------ -/
/- Recipe application: inner.rs, lines 1309-1488                       -/
/- ------------------------------------------------------------------ -/

/-- Modelled from the spec (§4.3): a recipe is a versioned list of installed
SQL statements holding a prior snapshot to support `revert`.  The `Recipe`
type itself lives in `controller/recipe.rs`, which is not part of the
sampled sources; only the control flow that manipulates it (inner.rs) is. -/
inductive Recipe where
  | mk (version : Nat) (sql : List String) (prior : Option Recipe)

def Recipe.version : Recipe → Nat
  | .mk v _ _ => v

def Recipe.sql : Recipe → List String
  | .mk _ s _ => s

def Recipe.prior : Recipe → Option Recipe
  | .mk _ _ p => p

/-- Modelled from the spec: `Recipe::blank_with_config_from` produces an
empty recipe (carrying only configuration, which this embedding does not
track). -/
def Recipe.blank : Recipe := .mk 0 [] none

/-- Modelled from the spec (§4.3): `extend(text)` parses one or more
statements and appends them; "Parse error yields (recipe_unchanged, error)"
— the Rust signature returns `Err((old, e))` carrying back the unchanged
recipe.  Parsing is an oracle argument. -/
def Recipe.extend (parsed : Except ReadySetError (List String)) (r : Recipe) :
    Except (Recipe × ReadySetError) Recipe :=
  match parsed with
  | .ok stmts => .ok (.mk r.version (r.sql ++ stmts) (some r))
  | .error e => .error (r, e)

/-- Modelled from the spec (§4.3): `revert()` restores the prior recipe. -/
def Recipe.revert (r : Recipe) : Recipe := r.prior.getD Recipe.blank

/-- Modelled from the spec (§4.3): `replace(other)` installs a new statement
list and keeps the prior for revert. -/
def Recipe.replace (r : Recipe) (other : Recipe) : Recipe :=
  .mk other.version other.sql (some r)

/-- Modelled from the spec (§4.3): the summary a successful activation
returns. -/
structure ActivationResult where
  new_nodes : List Nat
  removed_leaves : List Nat
deriving DecidableEq, Repr

/-- Embedding of `Leader::apply_recipe` (inner.rs lines 1309-1378) as a
function of the current `self.recipe` and the recipe being applied.  The
migration (`self.migrate(|mig| new.activate(mig))`, whose graph side lives
outside these lines) is an oracle giving the nested
`Result<Result<ActivationResult, _>, _>`: the outer layer is the `?` at line
1312, the inner layer the activation result matched at line 1314.  The leaf
and base removal loops (lines 1324-1364, each call suffixed `?`) are
collapsed into one `removalsOutcome` oracle.  On inner activation error the
source reverts `self.recipe` (lines 1368-1374); on success it installs `new`
(line 1366); an error propagated by `?` leaves `self.recipe` untouched. -/
def applyRecipe
    (migrateOutcome : Except ReadySetError (Except ReadySetError ActivationResult))
    (removalsOutcome : Except ReadySetError Unit)
    (current new : Recipe) : Except ReadySetError ActivationResult × Recipe :=
  match migrateOutcome with
  | .error e => (.error e, current)
  | .ok r =>
    match r with
    | .ok ra =>
      match removalsOutcome with
      | .error e => (.error e, current)
      | .ok _ => (.ok ra, new)
    | .error e => (.error e, current.revert)

/-- The slice of the `Leader` state read and written by
`extend_recipe`/`install_recipe`: the current recipe and the stored schema
replication offset (inner.rs lines 78-81). -/
structure LeaderRecipeState where
  recipe : Recipe
  replication_offset : Option ReplicationOffset

/-- `RecipeSpec` (the body of an extend/install request): recipe text and an
optional replication offset. -/
structure RecipeSpec where
  recipe : String
  replication_offset : Option ReplicationOffset
deriving DecidableEq, Repr

/-- Embedding of `Leader::extend_recipe` (inner.rs lines 1380-1434).  The
old recipe is cloned (line 1385), `self.recipe` is swapped for a blank
(line 1388) and extended; on success `apply_recipe` runs, the incoming
offset is max-merged into `self.replication_offset` (lines 1394-1396), and
the authority persist (an oracle; lines 1400-1419) escalates its failure as
an `internal` error; on an extend or apply error the old recipe is restored
(lines 1423, 1430). -/
def extendRecipe (parsed : Except ReadySetError (List String))
    (migrateOutcome : Except ReadySetError (Except ReadySetError ActivationResult))
    (removalsOutcome : Except ReadySetError Unit)
    (authorityOutcome : Except Unit Unit)
    (st : LeaderRecipeState) (spec : RecipeSpec) :
    Except ReadySetError ActivationResult × LeaderRecipeState :=
  let old := st.recipe
  match Recipe.extend parsed st.recipe with
  | .ok new =>
    match applyRecipe migrateOutcome removalsOutcome Recipe.blank new with
    | (.ok x, rec) =>
      let off := match spec.replication_offset with
        | some off => tryMaxInto off st.replication_offset
        | none => st.replication_offset
      match authorityOutcome with
      | .error _ =>
        (.error (.Internal "failed to persist recipe extension"),
          { recipe := rec, replication_offset := off })
      | .ok _ => (.ok x, { recipe := rec, replication_offset := off })
    | (.error e, _) =>
      (.error e, { recipe := old, replication_offset := st.replication_offset })
  | .error (rold, e) =>
    (.error e, { recipe := rold, replication_offset := st.replication_offset })

/-- Embedding of `Leader::install_recipe` (inner.rs lines 1436-1488).
`Recipe::from_str` is an oracle; on success the old recipe is swapped for a
blank and `old.replace(r)` is applied; on apply success the stored offset is
OVERWRITTEN with the request offset (line 1450) and the authority persist
failure escalates as `internal`; on apply error the old recipe is restored
(line 1478); a parse failure is an `internal` error (line 1485). -/
def installRecipe (parsed : Except ReadySetError Recipe)
    (migrateOutcome : Except ReadySetError (Except ReadySetError ActivationResult))
    (removalsOutcome : Except ReadySetError Unit)
    (authorityOutcome : Except Unit Unit)
    (st : LeaderRecipeState) (spec : RecipeSpec) :
    Except ReadySetError ActivationResult × LeaderRecipeState :=
  match parsed with
  | .ok r =>
    let old := st.recipe
    let new := Recipe.replace st.recipe r
    match applyRecipe migrateOutcome removalsOutcome Recipe.blank new with
    | (.ok x, rec) =>
      match authorityOutcome with
      | .error _ =>
        (.error (.Internal "failed to persist recipe installation"),
          { recipe := rec, replication_offset := spec.replication_offset })
      | .ok _ =>
        (.ok x, { recipe := rec, replication_offset := spec.replication_offset })
    | (.error e, _) =>
      (.error e, { recipe := old, replication_offset := st.replication_offset })
  | .error _ => (.error (.Internal "failed to parse recipe"), st)

/-- C7: if any step of applying a recipe change fails — a parse error in
`Recipe::extend`, an activation error, or a migration (or removal) error
inside `apply_recipe` — then `extend_recipe` returns that error and the
Leader's recipe is restored to its value from before the call.  (When the
failure is instead the authority persist, excluded by `hauth`, the source
deliberately keeps the applied recipe and escalates.) -/
theorem C7_extend_recipe_restores_recipe_on_failure
    (parsed : Except ReadySetError (List String))
    (migrateOutcome : Except ReadySetError (Except ReadySetError ActivationResult))
    (removalsOutcome : Except ReadySetError Unit)
    (st : LeaderRecipeState) (spec : RecipeSpec) (e : ReadySetError)
    (hres : (extendRecipe parsed migrateOutcome removalsOutcome (.ok ()) st spec).1 =
      .error e) :
    (extendRecipe parsed migrateOutcome removalsOutcome (.ok ()) st spec).2.recipe =
      st.recipe := by
  cases parsed with
  | error pe => rfl
  | ok stmts =>
    cases migrateOutcome with
    | error me => rfl
    | ok r =>
      cases r with
      | error ae => rfl
      | ok ra =>
        cases removalsOutcome with
        | error re => rfl
        | ok u =>
          exact absurd hres (by simp [extendRecipe, Recipe.extend, applyRecipe])

/-- Witness for `C7_extend_recipe_restores_recipe_on_failure`: a concrete
run whose activation fails leaves the concrete recipe in place. -/
theorem C7_extend_recipe_restores_recipe_on_failure_witness :
    (extendRecipe (.ok ["CREATE TABLE t"]) (.ok (.error (.other "activation")))
        (.ok ()) (.ok ())
        ⟨.mk 3 ["old"] none, some 7⟩ ⟨"CREATE TABLE t", none⟩).2.recipe =
      (⟨.mk 3 ["old"] none, some 7⟩ : LeaderRecipeState).recipe :=
  C7_extend_recipe_restores_recipe_on_failure (.ok ["CREATE TABLE t"])
    (.ok (.error (.other "activation"))) (.ok ())
    ⟨.mk 3 ["old"] none, some 7⟩ ⟨"CREATE TABLE t", none⟩ (.other "activation") rfl

/-- C8: on success with an offset supplied, `extend_recipe` max-merges the
incoming offset into the Leader's schema replication offset (so the stored
offset is the maximum of the existing and incoming offsets, dominating
both — monotonic), whereas `install_recipe` on success sets the stored
offset to exactly the supplied request offset, overwriting any existing
value. -/
theorem C8_offset_merge_policy
    (parsedE : Except ReadySetError (List String))
    (parsedI : Except ReadySetError Recipe)
    (mo mo2 : Except ReadySetError (Except ReadySetError ActivationResult))
    (ro ro2 : Except ReadySetError Unit)
    (auth auth2 : Except Unit Unit)
    (st st2 : LeaderRecipeState) (spec spec2 : RecipeSpec)
    (off : ReplicationOffset) :
    (spec.replication_offset = some off →
      ∀ x, (extendRecipe parsedE mo ro auth st spec).1 = .ok x →
        (extendRecipe parsedE mo ro auth st spec).2.replication_offset =
            tryMaxInto off st.replication_offset ∧
          ∃ m, tryMaxInto off st.replication_offset = some m ∧ off ≤ m ∧
            ∀ s, st.replication_offset = some s → s ≤ m) ∧
      (∀ x, (installRecipe parsedI mo2 ro2 auth2 st2 spec2).1 = .ok x →
        (installRecipe parsedI mo2 ro2 auth2 st2 spec2).2.replication_offset =
          spec2.replication_offset) := by
  constructor
  · intro hoff x hok
    constructor
    · cases parsedE with
      | error pe => simp [extendRecipe, Recipe.extend] at hok
      | ok stmts =>
        cases mo with
        | error me => simp [extendRecipe, Recipe.extend, applyRecipe] at hok
        | ok r =>
          cases r with
          | error ae => simp [extendRecipe, Recipe.extend, applyRecipe] at hok
          | ok ra =>
            cases ro with
            | error re => simp [extendRecipe, Recipe.extend, applyRecipe] at hok
            | ok u =>
              cases auth with
              | error ae => simp [extendRecipe, Recipe.extend, applyRecipe] at hok
              | ok au => simp [extendRecipe, Recipe.extend, applyRecipe, hoff]
    · obtain ⟨m, hm, hoffm, hprop⟩ := tryMaxInto_isSome off st.replication_offset
      exact ⟨m, hm, hoffm, hprop⟩
  · intro x hok
    cases parsedI with
    | error pe => simp [installRecipe] at hok
    | ok r =>
      cases mo2 with
      | error me => simp [installRecipe, applyRecipe] at hok
      | ok rr =>
        cases rr with
        | error ae => simp [installRecipe, applyRecipe] at hok
        | ok ra =>
          cases ro2 with
          | error re => simp [installRecipe, applyRecipe] at hok
          | ok u =>
            cases auth2 with
            | error ae => simp [installRecipe, applyRecipe] at hok
            | ok au => simp [installRecipe, applyRecipe]

/-- Witness for `C8_offset_merge_policy`: a concrete successful extend with
incoming offset 9 over a stored offset 4 stores `Some 9` (the max), and a
concrete successful install with request offset `Some 2` over stored offset
`Some 10` stores exactly `Some 2`. -/
theorem C8_offset_merge_policy_witness :
    (extendRecipe (.ok ["q"]) (.ok (.ok ⟨[], []⟩)) (.ok ()) (.ok ())
        ⟨.mk 1 [] none, some 4⟩ ⟨"q", some 9⟩).2.replication_offset =
        tryMaxInto 9 (some 4) ∧
      (installRecipe (.ok (.mk 2 ["r"] none)) (.ok (.ok ⟨[], []⟩)) (.ok ())
          (.ok ()) ⟨.mk 1 [] none, some 10⟩ ⟨"r", some 2⟩).2.replication_offset =
        some 2 :=
  ⟨((C8_offset_merge_policy (.ok ["q"]) (.ok (.mk 2 ["r"] none))
      (.ok (.ok ⟨[], []⟩)) (.ok (.ok ⟨[], []⟩)) (.ok ()) (.ok ()) (.ok ()) (.ok ())
      ⟨.mk 1 [] none, some 4⟩ ⟨.mk 1 [] none, some 10⟩
      ⟨"q", some 9⟩ ⟨"r", some 2⟩ 9).1 rfl ⟨[], []⟩ rfl).1,
   (C8_offset_merge_policy (.ok ["q"]) (.ok (.mk 2 ["r"] none))
      (.ok (.ok ⟨[], []⟩)) (.ok (.ok ⟨[], []⟩)) (.ok ()) (.ok ()) (.ok ()) (.ok ())
      ⟨.mk 1 [] none, some 4⟩ ⟨.mk 1 [] none, some 10⟩
      ⟨"q", some 9⟩ ⟨"r", some 2⟩ 9).2 ⟨[], []⟩ rfl⟩

/- ------------------------------------------------------------------ -/
/- Replicator: replicators/src/noria_adapter.rs                        -/
/- ------------------------------------------------------------------ -/

/-- Embedding of `Operation` (data.rs lines 741-746). -/
inductive Operation where
  | Add
  | Sub
deriving DecidableEq, Repr

/-- Embedding of `Modification` (data.rs lines 750-757). -/
inductive Modification where
  | Set (v : DataType)
  | Apply (op : Operation) (v : DataType)
  | none
deriving DecidableEq, Repr

/-- Embedding of `TableOperation` (data.rs lines 770-793), together with the
`SetReplicationOffset` variant the replicator appends (noria_adapter.rs line
420); that variant is declared in the part of the `noria` crate that is not
among the sampled sources. -/
inductive TableOperation where
  | Insert (row : List DataType)
  | Delete (key : List DataType)
  | InsertOrUpdate (row : List DataType) (update : List Modification)
  | Update (set : List Modification) (key : List DataType)
  | SetReplicationOffset (off : ReplicationOffset)
deriving DecidableEq, Repr

/-- Embedding of `ReplicationAction` (noria_adapter.rs lines 24-39). -/
inductive ReplicationAction where
  | TableAction (table : String) (actions : List TableOperation) (txid : Option Nat)
  | SchemaChange (ddl : String)
  | LogPosition
deriving DecidableEq, Repr

/-- Modelled from the spec: the `ReplicationOffsets` bookkeeping of the
`noria` crate — one optional offset for the schema and one per table
(noria_adapter.rs lines 72-78 documents it; its definition is not among the
sampled sources). -/
structure ReplicationOffsets where
  schema : Option ReplicationOffset
  tables : List (String × Option ReplicationOffset)
deriving DecidableEq, Repr

/-- Modelled from the spec (§4.6, `LogPosition`): `set_offset` advances the
schema offset and every table's offset to `pos`. -/
def ReplicationOffsets.set_offset (ro : ReplicationOffsets)
    (pos : ReplicationOffset) : ReplicationOffsets :=
  ⟨some pos, ro.tables.map (fun p => (p.1, some pos))⟩

/-- `HashMap::insert` on the per-table offset map.  The source map is
unordered, so the embedding's entry order is immaterial; lookups see the new
binding. -/
def insertAssoc (l : List (String × Option ReplicationOffset)) (k : String)
    (v : Option ReplicationOffset) : List (String × Option ReplicationOffset) :=
  (k, v) :: l.filter (fun p => p.1 ≠ k)

/-- `ReadySetError::caused_by_table_not_found` as used by
`mutator_for_table` (noria_adapter.rs line 500). -/
def ReadySetError.causedByTableNotFound : ReadySetError → Bool
  | .TableNotFound _ => true
  | _ => false

/-- The replicator's view of the Noria controller RPC surface
(`ControllerHandle` / `Table`), as outcome oracles: each call is a function
of its arguments giving the result the controller would return.  `table`
returns the node id of the table's base mutator. -/
structure NoriaApi where
  extend_recipe_with_offset : String → ReplicationOffset → Except ReadySetError Unit
  table : String → Except ReadySetError Nat
  perform_all : Nat → List TableOperation → Except ReadySetError Unit
  update_timestamp : Nat → Nat → Except ReadySetError Unit
  set_schema_replication_offset :
    Option ReplicationOffset → Except ReadySetError Unit
  set_replication_offset : Nat → ReplicationOffset → Except ReadySetError Unit

/-- The replicator state mutated by `handle_action` (noria_adapter.rs lines
63-79): the cached table mutators, the warned-missing-table set and the
stored replication offsets. -/
structure AdapterState where
  mutator_map : List (String × Nat)
  warned_missing_tables : List String
  replication_offsets : ReplicationOffsets
deriving DecidableEq, Repr

/-- The externally visible operations `handle_action` performs, in order —
the trace lets the development state "no table operations are applied". -/
inductive Effect where
  | performAll (table : String) (ops : List TableOperation)
  | extendRecipe (ddl : String) (pos : ReplicationOffset)
  | updateTimestamp (node : Nat) (txid : Nat)
  | setSchemaOffset (off : Option ReplicationOffset)
  | setTableOffset (node : Nat) (pos : ReplicationOffset)
deriving DecidableEq, Repr

/-- Embedding of `NoriaAdapter::mutator_for_table` (noria_adapter.rs lines
495-504): consult the cache, otherwise ask the controller; a
table-not-found error becomes `Ok(None)` (and is not cached), other errors
propagate. -/
def mutatorForTable (api : NoriaApi) (st : AdapterState) (name : String) :
    Except ReadySetError (Option Nat) × AdapterState :=
  match st.mutator_map.lookup name with
  | some node => (.ok (some node), st)
  | none =>
    match api.table name with
    | .ok node =>
      (.ok (some node), { st with mutator_map := st.mutator_map ++ [(name, node)] })
    | .error e =>
      if e.causedByTableNotFound then (.ok none, st) else (.error e, st)

/-- The per-table loop of the `LogPosition` arm of `handle_action`
(noria_adapter.rs lines 444-455): for every known table, resolve its mutator
and push the new offset; an error stops the loop and propagates. -/
def logPositionLoop (api : NoriaApi) (st : AdapterState) (tables : List String)
    (pos : ReplicationOffset) (trace : List Effect) :
    Except ReadySetError Unit × AdapterState × List Effect :=
  match tables with
  | [] => (.ok (), st, trace)
  | t :: rest =>
    match mutatorForTable api st t with
    | (.error e, st1) => (.error e, st1, trace)
    | (.ok Option.none, st1) => logPositionLoop api st1 rest pos trace
    | (.ok (some node), st1) =>
      match api.set_replication_offset node pos with
      | .error e => (.error e, st1, trace ++ [.setTableOffset node pos])
      | .ok _ => logPositionLoop api st1 rest pos (trace ++ [.setTableOffset node pos])

/-- Embedding of `NoriaAdapter::handle_action` (noria_adapter.rs lines
363-460).  `SchemaChange`: skip when `pos < schema_offset`, otherwise extend
the recipe, record the schema offset and clear the mutator cache.
`TableAction`: skip when the stored offset for the table exists and
`pos < table_offset` (line 395 — strictly less); otherwise resolve the
mutator (discarding the event, with a once-per-table warning, when the table
is unknown), append `SetReplicationOffset(pos)` to the operations, perform
them, propagate the timestamp when a transaction id is present, and store
`pos` as the table's offset.  `LogPosition`: advance all stored offsets then
push the position to the controller and every table. -/
def handleAction (api : NoriaApi) (st : AdapterState) (action : ReplicationAction)
    (pos : ReplicationOffset) :
    Except ReadySetError Unit × AdapterState × List Effect :=
  match action with
  | .SchemaChange ddl =>
    let skip := match st.replication_offsets.schema with
      | some so => decide (pos < so)
      | Option.none => false
    if skip then (.ok (), st, [])
    else
      match api.extend_recipe_with_offset ddl pos with
      | .error e => (.error e, st, [.extendRecipe ddl pos])
      | .ok _ =>
        (.ok (),
          { st with
              replication_offsets := { st.replication_offsets with schema := some pos },
              mutator_map := [] },
          [.extendRecipe ddl pos])
  | .TableAction table actions txid =>
    let skip := match st.replication_offsets.tables.lookup table with
      | some (some toff) => decide (pos < toff)
      | _ => false
    if skip then (.ok (), st, [])
    else
      match mutatorForTable api st table with
      | (.error e, st1) => (.error e, st1, [])
      | (.ok Option.none, st1) =>
        let st2 := if table ∈ st1.warned_missing_tables then st1
          else { st1 with
              warned_missing_tables := st1.warned_missing_tables ++ [table] }
        (.ok (), st2, [])
      | (.ok (some node), st1) =>
        let ops := actions ++ [.SetReplicationOffset pos]
        match api.perform_all node ops with
        | .error e => (.error e, st1, [.performAll table ops])
        | .ok _ =>
          match txid with
          | some tx =>
            match api.update_timestamp node tx with
            | .error e => (.error e, st1, [.performAll table ops, .updateTimestamp node tx])
            | .ok _ =>
              (.ok (),
                { st1 with
                    replication_offsets :=
                      { st1.replication_offsets with
                          tables := insertAssoc st1.replication_offsets.tables
                            table (some pos) } },
                [.performAll table ops, .updateTimestamp node tx])
          | Option.none =>
            (.ok (),
              { st1 with
                  replication_offsets :=
                    { st1.replication_offsets with
                        tables := insertAssoc st1.replication_offsets.tables
                          table (some pos) } },
              [.performAll table ops])
  | .LogPosition =>
    let st1 := { st with replication_offsets := st.replication_offsets.set_offset pos }
    match api.set_schema_replication_offset (some pos) with
    | .error e => (.error e, st1, [.setSchemaOffset (some pos)])
    | .ok _ =>
      logPositionLoop api st1 (st1.replication_offsets.tables.map Prod.fst) pos
        [.setSchemaOffset (some pos)]

lemma insertAssoc_lookup (l : List (String × Option ReplicationOffset))
    (k : String) (v : Option ReplicationOffset) :
    (insertAssoc l k v).lookup k = some v := by
  simp [insertAssoc, List.lookup]

/-- A controller oracle whose every call succeeds and that knows no tables. -/
def okApi : NoriaApi where
  extend_recipe_with_offset := fun _ _ => .ok ()
  table := fun n => .error (.TableNotFound n)
  perform_all := fun _ _ => .ok ()
  update_timestamp := fun _ _ => .ok ()
  set_schema_replication_offset := fun _ => .ok ()
  set_replication_offset := fun _ _ => .ok ()

/-- C3 counterexample: the claim says a `TableAction` with `pos ≤` the
stored offset is skipped (no table operations applied, offset unchanged).
With stored offset 5 and an event at `pos = 5` the source applies the event:
`perform_all` runs with the appended `SetReplicationOffset` and the offset is
(re)stored — the skip test at noria_adapter.rs line 395 is strict `<`. -/
theorem C3_handle_action_counterexample :
    (handleAction okApi ⟨[("t", 0)], [], ⟨Option.none, [("t", some 5)]⟩⟩
        (.TableAction "t" [.Insert [.Int 1]] Option.none) 5).2.2 =
      [.performAll "t" [.Insert [.Int 1], .SetReplicationOffset 5]] ∧
      ([.performAll "t" [.Insert [.Int 1], .SetReplicationOffset 5]] :
        List Effect) ≠ [] ∧
      (handleAction okApi ⟨[("t", 0)], [], ⟨Option.none, [("t", some 5)]⟩⟩
          (.TableAction "t" [.Insert [.Int 1]] Option.none)
          5).2.1.replication_offsets.tables.lookup "t" = some (some 5) := by
  refine ⟨rfl, by simp, rfl⟩

/-- C3 (amended): for a streamed `TableAction` at offset `pos` targeting a
table `t` for which the replicator holds a stored offset, the event is
skipped (no operations performed, state unchanged) iff `pos` is strictly
less than the stored offset; when `pos` is greater than OR EQUAL to it, the
operations (with `SetReplicationOffset pos` appended) are performed and the
stored offset for `t` becomes `pos`. -/
theorem C3_table_action_skip_iff_lt (api : NoriaApi) (st : AdapterState)
    (t : String) (ops : List TableOperation) (txid : Option Nat)
    (pos toff : ReplicationOffset)
    (hstored : st.replication_offsets.tables.lookup t = some (some toff)) :
    (pos < toff →
      handleAction api st (.TableAction t ops txid) pos = (.ok (), st, [])) ∧
    (toff ≤ pos → ∀ node st1,
      mutatorForTable api st t = (.ok (some node), st1) →
      api.perform_all node (ops ++ [.SetReplicationOffset pos]) = .ok () →
      (∀ tx, txid = some tx → api.update_timestamp node tx = .ok ()) →
      (handleAction api st (.TableAction t ops txid) pos).1 = .ok () ∧
      Effect.performAll t (ops ++ [.SetReplicationOffset pos]) ∈
        (handleAction api st (.TableAction t ops txid) pos).2.2 ∧
      (handleAction api st (.TableAction t ops txid)
          pos).2.1.replication_offsets.tables.lookup t = some (some pos)) := by
  constructor
  · intro hlt
    simp [handleAction, hstored, hlt]
  · intro hge node st1 hmut hperf htx
    cases txid with
    | none =>
      simp [handleAction, hstored, Nat.not_lt.mpr hge, hmut, hperf,
        insertAssoc_lookup]
    | some tx =>
      have hts := htx tx rfl
      simp [handleAction, hstored, Nat.not_lt.mpr hge, hmut, hperf, hts,
        insertAssoc_lookup]

/-- Witness for `C3_table_action_skip_iff_lt`: with stored offset 5, an
event at `pos = 3` is skipped and leaves the state untouched, and an event
at `pos = 7` is applied and stores offset 7. -/
theorem C3_table_action_skip_iff_lt_witness :
    handleAction okApi ⟨[("t", 0)], [], ⟨Option.none, [("t", some 5)]⟩⟩
        (.TableAction "t" [.Insert [.Int 1]] Option.none) 3 =
      (.ok (), ⟨[("t", 0)], [], ⟨Option.none, [("t", some 5)]⟩⟩, []) ∧
      (handleAction okApi ⟨[("t", 0)], [], ⟨Option.none, [("t", some 5)]⟩⟩
          (.TableAction "t" [.Insert [.Int 1]] Option.none)
          7).2.1.replication_offsets.tables.lookup "t" = some (some 7) :=
  ⟨(C3_table_action_skip_iff_lt okApi
      ⟨[("t", 0)], [], ⟨Option.none, [("t", some 5)]⟩⟩ "t"
      [.Insert [.Int 1]] Option.none 3 5 (by decide)).1 (by decide),
   ((C3_table_action_skip_iff_lt okApi
      ⟨[("t", 0)], [], ⟨Option.none, [("t", some 5)]⟩⟩ "t"
      [.Insert [.Int 1]] Option.none 7 5 (by decide)).2 (by decide) 0
      ⟨[("t", 0)], [], ⟨Option.none, [("t", some 5)]⟩⟩ rfl rfl
      (by intro tx h; cases h)).2.2⟩

/-- `ReadySetError::RecipeInvariantViolated(_)` recognizer (the pattern of
the first arm of the error match in `main_loop`, noria_adapter.rs line
480). -/
def ReadySetError.isRecipeInvariantViolated : ReadySetError → Bool
  | .RecipeInvariantViolated _ => true
  | _ => false

/-- The loop guard `until.as_ref().map(|u| *position >= *u).unwrap_or(false)`
(noria_adapter.rs line 469). -/
def untilReached (stopAt : Option ReplicationOffset)
    (position : ReplicationOffset) : Bool :=
  match stopAt with
  | some u => decide (u ≤ position)
  | Option.none => false

/-- The outcome of a `main_loop` run over a finite window of connector
events.  `stoppedErr` is the loop returning `Err`, `reachedUntil` the
`return Ok(())` of the guard; `endOfEvents` marks the end of the observed
window (the real connector never stops producing events). -/
inductive LoopOutcome where
  | stoppedErr (e : ReadySetError)
  | reachedUntil (st : AdapterState) (position : ReplicationOffset)
  | endOfEvents (st : AdapterState) (position : ReplicationOffset)
deriving DecidableEq, Repr

/-- Embedding of `NoriaAdapter::main_loop` (noria_adapter.rs lines 463-485)
over a finite list of connector results (`next_action` outcomes).  Each
iteration: check the `until` guard; a connector error propagates via `?`;
otherwise advance the position and handle the action — an
`Err(RecipeInvariantViolated)` from `handle_action` terminates the loop with
that error, any other error is logged and the loop continues (with the
state as `handle_action` left it), as does success. -/
def mainLoop (api : NoriaApi) (st : AdapterState) (position : ReplicationOffset)
    (stopAt : Option ReplicationOffset) :
    List (Except ReadySetError (ReplicationAction × ReplicationOffset)) →
      LoopOutcome
  | [] =>
    if untilReached stopAt position then .reachedUntil st position
    else .endOfEvents st position
  | ev :: rest =>
    if untilReached stopAt position then .reachedUntil st position
    else
      match ev with
      | .error e => .stoppedErr e
      | .ok (action, pos) =>
        match handleAction api st action pos with
        | (.error (.RecipeInvariantViolated m), _, _) =>
          .stoppedErr (.RecipeInvariantViolated m)
        | (.error _, st1, _) => mainLoop api st1 pos stopAt rest
        | (.ok _, st1, _) => mainLoop api st1 pos stopAt rest

/-- C9: the error policy of the replicator's `main_loop`.  (a) Whenever the
loop stops with an error, that error is either a `RecipeInvariantViolated`
(from `handle_action`) or an error the connector itself produced — so no
other `handle_action` error ever stops the loop; (b) a
`RecipeInvariantViolated` from `handle_action` stops the loop with exactly
that error; (c) any other `handle_action` error lets the loop continue with
the next event; (d) so does success. -/
theorem C9_main_loop_error_policy :
    (∀ (api : NoriaApi) (st : AdapterState) (position : ReplicationOffset)
        (stopAt : Option ReplicationOffset)
        (events : List (Except ReadySetError (ReplicationAction × ReplicationOffset)))
        (e : ReadySetError),
      mainLoop api st position stopAt events = .stoppedErr e →
        e.isRecipeInvariantViolated = true ∨ .error e ∈ events) ∧
    (∀ (api : NoriaApi) (st : AdapterState) (position : ReplicationOffset)
        (stopAt : Option ReplicationOffset) rest action pos m st1 tr,
      untilReached stopAt position = false →
      handleAction api st action pos = (.error (.RecipeInvariantViolated m), st1, tr) →
      mainLoop api st position stopAt (.ok (action, pos) :: rest) =
        .stoppedErr (.RecipeInvariantViolated m)) ∧
    (∀ (api : NoriaApi) (st : AdapterState) (position : ReplicationOffset)
        (stopAt : Option ReplicationOffset) rest action pos e st1 tr,
      untilReached stopAt position = false →
      handleAction api st action pos = (.error e, st1, tr) →
      e.isRecipeInvariantViolated = false →
      mainLoop api st position stopAt (.ok (action, pos) :: rest) =
        mainLoop api st1 pos stopAt rest) ∧
    (∀ (api : NoriaApi) (st : AdapterState) (position : ReplicationOffset)
        (stopAt : Option ReplicationOffset) rest action pos st1 tr,
      untilReached stopAt position = false →
      handleAction api st action pos = (.ok (), st1, tr) →
      mainLoop api st position stopAt (.ok (action, pos) :: rest) =
        mainLoop api st1 pos stopAt rest) := by
  refine ⟨?_, ?_, ?_, ?_⟩
  · intro api st position stopAt events
    induction events generalizing st position with
    | nil =>
      intro e h
      simp only [mainLoop] at h
      split at h <;> cases h
    | cons ev rest ih =>
      intro e h
      simp only [mainLoop] at h
      split at h
      · cases h
      · cases ev with
        | error e2 =>
          cases h
          exact Or.inr (List.mem_cons_self _ _)
        | ok ap =>
          obtain ⟨action, pos⟩ := ap
          dsimp only at h
          rcases hha : handleAction api st action pos with ⟨res, st1, tr⟩
          rw [hha] at h
          cases res with
          | ok u =>
            rcases ih st1 pos e h with hl | hr
            · exact Or.inl hl
            · exact Or.inr (List.mem_cons_of_mem _ hr)
          | error e2 =>
            cases e2 with
            | RecipeInvariantViolated m =>
              cases h
              exact Or.inl rfl
            | NoQuorum =>
              rcases ih st1 pos e h with hl | hr
              · exact Or.inl hl
              · exact Or.inr (List.mem_cons_of_mem _ hr)
            | UnknownEndpoint =>
              rcases ih st1 pos e h with hl | hr
              · exact Or.inl hl
              · exact Or.inr (List.mem_cons_of_mem _ hr)
            | NoSuchDomain d s =>
              rcases ih st1 pos e h with hl | hr
              · exact Or.inl hl
              · exact Or.inr (List.mem_cons_of_mem _ hr)
            | Unsupported m =>
              rcases ih st1 pos e h with hl | hr
              · exact Or.inl hl
              · exact Or.inr (List.mem_cons_of_mem _ hr)
            | Internal m =>
              rcases ih st1 pos e h with hl | hr
              · exact Or.inl hl
              · exact Or.inr (List.mem_cons_of_mem _ hr)
            | ReplicationFailed m =>
              rcases ih st1 pos e h with hl | hr
              · exact Or.inl hl
              · exact Or.inr (List.mem_cons_of_mem _ hr)
            | TableNotFound n =>
              rcases ih st1 pos e h with hl | hr
              · exact Or.inl hl
              · exact Or.inr (List.mem_cons_of_mem _ hr)
            | other m =>
              rcases ih st1 pos e h with hl | hr
              · exact Or.inl hl
              · exact Or.inr (List.mem_cons_of_mem _ hr)
  · intro api st position stopAt rest action pos m st1 tr hguard hha
    simp [mainLoop, hguard, hha]
  · intro api st position stopAt rest action pos e st1 tr hguard hha hnot
    cases e <;> simp_all [mainLoop, ReadySetError.isRecipeInvariantViolated]
  · intro api st position stopAt rest action pos st1 tr hguard hha
    simp [mainLoop, hguard, hha]

/-- An oracle whose recipe extension reports a recipe invariant violation. -/
def rivApi : NoriaApi :=
  { okApi with
      extend_recipe_with_offset := fun _ _ =>
        .error (.RecipeInvariantViolated "bad") }

/-- Witness for `C9_main_loop_error_policy`: a concrete run in which the one
event's `SchemaChange` handling fails with `RecipeInvariantViolated` makes
the loop stop with exactly that error. -/
theorem C9_main_loop_error_policy_witness :
    mainLoop rivApi ⟨[], [], ⟨Option.none, []⟩⟩ 0 Option.none
        [.ok (.SchemaChange "ddl", 1)] =
      .stoppedErr (.RecipeInvariantViolated "bad") :=
  C9_main_loop_error_policy.2.1 rivApi ⟨[], [], ⟨Option.none, []⟩⟩ 0 Option.none
    [] (.SchemaChange "ddl") 1 "bad" ⟨[], [], ⟨Option.none, []⟩⟩
    [.extendRecipe "ddl" 1] rfl rfl

/- ------------------------------------------------------------------ -/
/- Query graph: noria/server/src/controller/sql/query_graph.rs         -/
/- ------------------------------------------------------------------ -/

/-- `nom_sql::ItemPlaceholder`: the placeholder syntaxes.  `nom-sql` is not
among the sampled sources; the variants are the three the replicator-side
code matches (`DollarNumber` at query_graph.rs line 511, everything else at
line 512). -/
inductive ItemPlaceholder where
  | QuestionMark
  | DollarNumber (n : Nat)
  | ColonNumber (n : Nat)
deriving DecidableEq, Repr

/-- `nom_sql::Literal`, reduced to the variants `classify_conditionals`
distinguishes: a placeholder versus any other literal. -/
inductive SqlLiteral where
  | Null
  | Integer (i : Int)
  | Str (s : String)
  | Placeholder (p : ItemPlaceholder)
deriving DecidableEq, Repr

/-- `nom_sql::Column` as used by query_graph.rs: a name and an optional
table qualifier (the `function` field of the source type is never consulted
by the embedded functions). -/
structure Column where
  name : String
  table : Option String
deriving DecidableEq, Repr

/-- `nom_sql::Table` as compared by `tables.contains(&Table::from(..))`
(query_graph.rs lines 468-474); `Table::from(&str)` has no alias or schema,
so only the name participates here. -/
structure Table where
  name : String
deriving DecidableEq, Repr

/-- `nom_sql::BinaryOperator` (the full variant list of the crate). -/
inductive BinaryOperator where
  | And
  | Or
  | Like
  | NotLike
  | ILike
  | NotILike
  | Equal
  | NotEqual
  | Greater
  | GreaterOrEqual
  | Less
  | LessOrEqual
  | Is
  | IsNot
  | Add
  | Subtract
  | Multiply
  | Divide
deriving DecidableEq, Repr

/-- `nom_sql::UnaryOperator`. -/
inductive UnaryOperator where
  | Not
  | Neg
deriving DecidableEq, Repr

/- `nom_sql::Expression` with `nom_sql::InValue`, covering every arm the
`classify_conditionals` match distinguishes.  Payloads that the embedded
functions never inspect (subqueries, cast targets, …) are reduced to
markers. -/
mutual
inductive Expression where
  | Column (c : Column)
  | Literal (l : SqlLiteral)
  | BinaryOp (op : BinaryOperator) (lhs rhs : Expression)
  | UnaryOp (op : UnaryOperator) (e : Expression)
  | In (lhs : Expression) (rhs : InValue) (negated : Bool)
  | Between (operand lo hi : Expression) (negated : Bool)
  | Exists
  | NestedSelect
  | Call (name : String) (args : List Expression)
  | CaseWhen (cond thenBranch : Expression) (elseBranch : Option Expression)
  | Cast (e : Expression) (ty : String)
  | Variable (name : String)
inductive InValue where
  | List (exprs : List Expression)
  | Subquery
end

/- Modelled from the spec and `nom_sql::analysis::ReferredColumns` (the
`nom-sql` crate is not among the sampled sources): every column mentioned in
an expression tree. -/
mutual
def Expression.referredColumns : Expression → List Column
  | .Column c => [c]
  | .Literal _ => []
  | .BinaryOp _ l r => Expression.referredColumns l ++ Expression.referredColumns r
  | .UnaryOp _ e => Expression.referredColumns e
  | .In l rhs _ => Expression.referredColumns l ++ InValue.referredColumns rhs
  | .Between a lo hi _ =>
    Expression.referredColumns a ++ Expression.referredColumns lo ++
      Expression.referredColumns hi
  | .Exists => []
  | .NestedSelect => []
  | .Call _ args => exprListReferredColumns args
  | .CaseWhen c t e =>
    Expression.referredColumns c ++ Expression.referredColumns t ++
      optionReferredColumns e
  | .Cast e _ => Expression.referredColumns e
  | .Variable _ => []
def InValue.referredColumns : InValue → List Column
  | .List es => exprListReferredColumns es
  | .Subquery => []
def exprListReferredColumns : List Expression → List Column
  | [] => []
  | e :: es => Expression.referredColumns e ++ exprListReferredColumns es
def optionReferredColumns : Option Expression → List Column
  | some e => Expression.referredColumns e
  | Option.none => []
end

/-- `LogicalOp` with its `TryFrom<BinaryOperator>` (controller/sql/
query_utils.rs, not among the sampled sources; modelled from its use at
query_graph.rs line 368): only `And` and `Or` convert. -/
inductive LogicalOp where
  | and
  | or
deriving DecidableEq, Repr

def LogicalOp.tryFrom : BinaryOperator → Option LogicalOp
  | .And => some .and
  | .Or => some .or
  | _ => Option.none

/-- `is_predicate` (controller/sql/query_utils.rs, not among the sampled
sources; modelled from its use at query_graph.rs line 458): true exactly for
the comparison operators, false for the logical and arithmetic ones. -/
def isPredicate : BinaryOperator → Bool
  | .Like | .NotLike | .ILike | .NotILike
  | .Equal | .NotEqual
  | .Greater | .GreaterOrEqual | .Less | .LessOrEqual
  | .Is | .IsNot => true
  | _ => false

/-- Embedding of `JoinPredicate` (query_graph.rs lines 165-168). -/
structure JoinPredicate where
  left : Expression
  right : Expression

/-- Embedding of `Parameter` (query_graph.rs lines 172-176). -/
structure Parameter where
  col : Column
  op : BinaryOperator
  placeholder_idx : Option Nat
deriving DecidableEq, Repr

/-- The placeholder-to-index rule of the parameter branch (query_graph.rs
lines 510-513): only dollar-number placeholders carry an index. -/
def placeholderIdx : ItemPlaceholder → Option Nat
  | .DollarNumber n => some n
  | _ => Option.none

/-- The four collections `classify_conditionals` fills through its `&mut`
arguments (query_graph.rs lines 352-355): per-table local predicates (a
`HashMap<String, Vec<_>>`, embedded as an association list with unique
keys), join predicates, global predicates and parameters. -/
structure ClassifyState where
  local_preds : List (String × List Expression)
  join_preds : List JoinPredicate
  global_preds : List Expression
  params : List Parameter

/-- `local.entry(t).or_default().extend(es)`: append to the table's entry,
creating it if missing. -/
def pushLocal (l : List (String × List Expression)) (t : String)
    (es : List Expression) : List (String × List Expression) :=
  if (l.lookup t).isSome then
    l.map (fun p => if p.1 = t then (p.1, p.2 ++ es) else p)
  else l ++ [(t, es)]

/-- The per-table merge of the AND branch (query_graph.rs lines 401-420):
each table's recursively collected predicates — the `invariant!` admits at
most two — are combined into one AND expression when there are exactly two,
otherwise appended as they are. -/
def mergeAndLocal (merged : List (String × List Expression))
    (acc : List (String × List Expression)) :
    Except ReadySetError (List (String × List Expression)) :=
  match merged with
  | [] => .ok acc
  | (t, ces) :: rest =>
    if ces.length > 2 then
      .error (.Internal "can only combine two or fewer ConditionExpressions")
    else
      match ces with
      | [e1, e2] => mergeAndLocal rest (pushLocal acc t [.BinaryOp .And e1 e2])
      | _ => mergeAndLocal rest (pushLocal acc t ces)

/-- `Option<&String>` comparison used to order join sides (query_graph.rs
lines 485-489); Rust orders `None` below `Some`. -/
def optStrCmp : Option String → Option String → Ordering
  | Option.none, Option.none => .eq
  | Option.none, some _ => .lt
  | some _, Option.none => .gt
  | some a, some b => compare a b

/-- Embedding of `classify_conditionals` (query_graph.rs lines 349-604).
The four `&mut` collections become a threaded `ClassifyState`; an
`unsupported!`/`internal!` macro becomes the corresponding error.  For a
logical AND/OR the two sides are classified into fresh collections and
merged per the source's corner-case rules; an atomic predicate dispatches on
the right-hand side: a column may make a comma join (equality over two
distinct known tables, sides swapped so the smaller table name is on the
left) or otherwise a global predicate; a placeholder literal makes a
`Parameter` — but only when the left-hand side is a column, any other
left-hand side is silently discarded with success; other literals make a
local (table-qualified column) or global predicate — again discarded when
the left-hand side is no column; other right-hand sides are unsupported.
`IN` over a literal list is local to its single mentioned table or else
global; stray `NOT`/`BETWEEN` and bare expressions are internal errors. -/
def classifyConditionals (ce : Expression) (tables : List Table)
    (st : ClassifyState) : Except ReadySetError ClassifyState :=
  match ce with
  | .BinaryOp op lhs rhs =>
    match LogicalOp.tryFrom op with
    | some lop =>
      match classifyConditionals lhs tables ⟨[], [], [], []⟩ with
      | .error e => .error e
      | .ok st1 =>
        match classifyConditionals rhs tables st1 with
        | .error e => .error e
        | .ok st2 =>
          match lop with
          | .and =>
            match mergeAndLocal st2.local_preds st.local_preds with
            | .error e => .error e
            | .ok lcl =>
              .ok ⟨lcl, st.join_preds ++ st2.join_preds,
                st.global_preds ++ st2.global_preds, st.params ++ st2.params⟩
          | .or =>
            if st2.join_preds.length ≠ 0 then
              .error (.Unsupported
                "OR expressions between JOIN predicates are unsupported")
            else if st2.params.length ≠ 0 then
              .error (.Unsupported
                "OR expressions between query parameter predicates are unsupported")
            else
              match st2.local_preds, st2.global_preds with
              | [(t, ces)], [] =>
                match ces with
                | [e1, e2] =>
                  .ok ⟨pushLocal st.local_preds t [.BinaryOp .Or e1 e2],
                    st.join_preds ++ st2.join_preds,
                    st.global_preds, st.params ++ st2.params⟩
                | _ =>
                  .error (.Unsupported "should combine only 2 ConditionExpressions")
              | _, _ =>
                .ok ⟨st.local_preds, st.join_preds ++ st2.join_preds,
                  st.global_preds ++ [ce], st.params ++ st2.params⟩
    | Option.none =>
      if isPredicate op then
        match rhs with
        | .Column rf =>
          match lhs with
          | .Column lf =>
            if (match lf.table, rf.table with
                | some lt, some rt =>
                  tables.contains ⟨lt⟩ && tables.contains ⟨rt⟩ && decide (lt ≠ rt)
                | _, _ => false) then
              if op = BinaryOperator.Equal then
                let jp : JoinPredicate :=
                  if optStrCmp rf.table lf.table = .lt then ⟨rhs, lhs⟩
                  else ⟨lhs, rhs⟩
                .ok { st with join_preds := st.join_preds ++ [jp] }
              else .error (.Unsupported "non-equi-join")
            else .ok { st with global_preds := st.global_preds ++ [ce] }
          | _ => .ok { st with global_preds := st.global_preds ++ [ce] }
        | .Literal (.Placeholder ph) =>
          match lhs with
          | .Column lf =>
            .ok { st with params := st.params ++ [⟨lf, op, placeholderIdx ph⟩] }
          | _ => .ok st
        | .Literal _ =>
          match lhs with
          | .Column lf =>
            match lf.table with
            | some t =>
              .ok { st with local_preds := pushLocal st.local_preds t [ce] }
            | Option.none =>
              .ok { st with global_preds := st.global_preds ++ [ce] }
          | _ => .ok st
        | .NestedSelect => .error (.Unsupported "nested SELECTs are unsupported")
        | _ =>
          .error (.Unsupported "Unsupported right-hand side of condition expression")
      else .error (.Unsupported "Arithmetic not supported here")
  | .In lhs (.List rhsList) _ =>
    let tbls := ((Expression.referredColumns lhs ++
      exprListReferredColumns rhsList).filterMap (fun c => c.table)).dedup
    match tbls with
    | [] =>
      .error (.Unsupported "Filter conditions must currently mention at least one column")
    | [t] => .ok { st with local_preds := pushLocal st.local_preds t [ce] }
    | _ => .ok { st with global_preds := st.global_preds ++ [ce] }
  | .UnaryOp .Not _ =>
    .error (.Internal "negation should have been removed earlier")
  | .Exists => .error (.Unsupported "EXISTS not supported yet")
  | .Between _ _ _ _ =>
    .error (.Internal "Between should have been removed earlier")
  | _ =>
    .error (.Internal "encountered unexpected standalone base of condition expression")

lemma isPredicate_tryFrom_none (op : BinaryOperator)
    (h : isPredicate op = true) : LogicalOp.tryFrom op = Option.none := by
  cases op <;> simp_all [isPredicate, LogicalOp.tryFrom]

/-- C10: in the WHERE-clause classifier, an atomic comparison whose
right-hand side is a placeholder literal produces a `Parameter` only when
its left-hand side is a column; for any other left-hand side
`classify_conditionals` succeeds while adding nothing to any of the four
collections (the predicate is silently discarded); and the recorded
placeholder index is `Some` only for dollar-number placeholders — both
question-mark and colon-number placeholders record `None`. -/
theorem C10_placeholder_parameter_requires_column_lhs
    (tables : List Table) (st : ClassifyState) (op : BinaryOperator)
    (lhs : Expression) (ph : ItemPlaceholder)
    (hpred : isPredicate op = true) :
    ((∀ c, lhs ≠ .Column c) →
      classifyConditionals (.BinaryOp op lhs (.Literal (.Placeholder ph)))
        tables st = .ok st) ∧
    (∀ c, lhs = .Column c →
      classifyConditionals (.BinaryOp op lhs (.Literal (.Placeholder ph)))
        tables st =
        .ok { st with params := st.params ++ [⟨c, op, placeholderIdx ph⟩] }) ∧
    placeholderIdx .QuestionMark = Option.none ∧
    (∀ n, placeholderIdx (.DollarNumber n) = some n) ∧
    (∀ n, placeholderIdx (.ColonNumber n) = Option.none) := by
  have htf := isPredicate_tryFrom_none op hpred
  refine ⟨?_, ?_, rfl, fun n => rfl, fun n => rfl⟩
  · intro h
    cases lhs <;> first
      | exact absurd rfl (h _)
      | simp [classifyConditionals, htf, hpred]
  · intro c hc
    subst hc
    simp [classifyConditionals, htf, hpred]

/-- Witness for `C10_placeholder_parameter_requires_column_lhs`: the
comparison `1 = ?` (a literal left-hand side against a question-mark
placeholder) classifies successfully and leaves the empty state empty. -/
theorem C10_placeholder_parameter_requires_column_lhs_witness :
    classifyConditionals
        (.BinaryOp .Equal (.Literal (.Integer 1))
          (.Literal (.Placeholder .QuestionMark))) [] ⟨[], [], [], []⟩ =
      .ok ⟨[], [], [], []⟩ :=
  (C10_placeholder_parameter_requires_column_lhs [] ⟨[], [], [], []⟩ .Equal
      (.Literal (.Integer 1)) .QuestionMark rfl).1
    (by intro c h; exact Expression.noConfusion h)

/-- `common::IndexType` (the `common` crate is not among the sampled
sources). -/
inductive IndexType where
  | HashMap
  | BTreeMap
deriving DecidableEq, Repr

/-- Modelled from the spec (§4.2, View key): `IndexType::for_operator` —
"equality ⇒ hash, range (<, >, ≤, ≥) ⇒ ordered"; any other operator supports
no index. -/
def IndexType.for_operator : BinaryOperator → Option IndexType
  | .Equal => some .HashMap
  | .Greater | .GreaterOrEqual | .Less | .LessOrEqual => some .BTreeMap
  | _ => Option.none

/-- Modelled from the spec: `mir::Column` — a column reference carried into
the reader key (the `mir` module is not among the sampled sources).
`mir::Column::new(None, "bogokey")` and `mir::Column::from(nom_sql::Column)`
keep the table qualifier and name. -/
structure MirColumn where
  table : Option String
  name : String
deriving DecidableEq, Repr

/-- Embedding of `ViewKey` (query_graph.rs lines 202-209). -/
structure ViewKey where
  columns : List (MirColumn × Option Nat)
  index_type : IndexType
deriving DecidableEq, Repr

/-- Embedding of `QueryGraphNode` (query_graph.rs lines 179-184). -/
structure QueryGraphNode where
  rel_name : String
  predicates : List Expression
  columns : List Column
  parameters : List Parameter

/-- The slice of `QueryGraph` (query_graph.rs lines 212-228) read by
`parameters`, `has_aggregates` and `view_key`: the relations map (a
`HashMap<String, QueryGraphNode>`, embedded as an association list; the
source map's iteration order is unspecified). -/
structure QueryGraph where
  relations : List (String × QueryGraphNode)

/-- Embedding of `QueryGraph::parameters` (query_graph.rs lines 237-242):
the parameters of all relations, flattened. -/
def QueryGraph.parameters (qg : QueryGraph) : List Parameter :=
  (qg.relations.map (fun p => p.2.parameters)).flatten

/-- Embedding of `QueryGraph::has_aggregates` (query_graph.rs lines
253-258): the `computed_columns` relation exists and has columns. -/
def QueryGraph.has_aggregates (qg : QueryGraph) : Bool :=
  match qg.relations.lookup "computed_columns" with
  | some rel => !rel.columns.isEmpty
  | Option.none => false

/-- The parameter loop of `view_key` (query_graph.rs lines 271-285): reject
range parameters when the query aggregates, then accumulate the index type
chosen by `for_operator`, rejecting conflicts and unsupported operators. -/
def viewKeyIndexLoop (params : List Parameter) (hasAggs : Bool)
    (acc : Option IndexType) : Except ReadySetError (Option IndexType) :=
  match params with
  | [] => .ok acc
  | p :: rest =>
    if hasAggs = true ∧ p.op ≠ BinaryOperator.Equal then
      .error (.Unsupported "Aggregates are not currently supported with non-equal parameters")
    else
      match IndexType.for_operator p.op with
      | some it =>
        match acc with
        | Option.none => viewKeyIndexLoop rest hasAggs (some it)
        | some it0 =>
          if it0 = it then viewKeyIndexLoop rest hasAggs (some it0)
          else .error (.Unsupported "Conflicting binary operators in query")
      | Option.none => .error (.Unsupported "Unsupported binary operator")

/-- Embedding of `QueryGraph::view_key` (query_graph.rs lines 262-296).  No
parameters: a synthetic bogokey column with a hash-map index.  Otherwise the
loop determines the index type and the key columns are the parameter
columns in order, each with its optional placeholder index; the source's
`.expect(..)` on the accumulated index type (unreachable for a non-empty
parameter list) is an internal error here. -/
def QueryGraph.view_key (qg : QueryGraph) : Except ReadySetError ViewKey :=
  if qg.parameters.isEmpty then
    .ok ⟨[(⟨Option.none, "bogokey"⟩, Option.none)], .HashMap⟩
  else
    match viewKeyIndexLoop qg.parameters qg.has_aggregates Option.none with
    | .error e => .error e
    | .ok Option.none => .error (.Internal "index type expected to be set")
    | .ok (some it) =>
      .ok ⟨qg.parameters.map (fun p => (⟨p.col.table, p.col.name⟩, p.placeholder_idx)),
        it⟩

lemma viewKeyIndexLoop_ok_of_same (params : List Parameter) (hasAggs : Bool)
    (it0 : IndexType)
    (hsame : ∀ p ∈ params, IndexType.for_operator p.op = some it0)
    (hagg : hasAggs = true → ∀ p ∈ params, p.op = BinaryOperator.Equal) :
    viewKeyIndexLoop params hasAggs (some it0) = .ok (some it0) := by
  induction params with
  | nil => rfl
  | cons p rest ih =>
    have hp := hsame p (by simp)
    have hnotagg : ¬ (hasAggs = true ∧ p.op ≠ BinaryOperator.Equal) := by
      rintro ⟨ha, hne⟩
      exact hne (hagg ha p (by simp))
    simp only [viewKeyIndexLoop, if_neg hnotagg, hp]
    try rw [if_pos rfl]
    exact ih (fun q hq => hsame q (by simp [hq]))
      (fun ha q hq => hagg ha q (by simp [hq]))

lemma viewKeyIndexLoop_ok_acc (params : List Parameter) (hasAggs : Bool)
    (it0 : IndexType) (r : Option IndexType)
    (h : viewKeyIndexLoop params hasAggs (some it0) = .ok r) : r = some it0 := by
  induction params generalizing r with
  | nil => cases h; rfl
  | cons p rest ih =>
    simp only [viewKeyIndexLoop] at h
    split at h
    · cases h
    · split at h
      · split at h
        · exact ih r h
        · cases h
      · cases h

lemma viewKeyIndexLoop_ok_all (params : List Parameter) (hasAggs : Bool)
    (acc : Option IndexType) (r : Option IndexType)
    (h : viewKeyIndexLoop params hasAggs acc = .ok r) :
    ∀ p ∈ params, ∃ it, IndexType.for_operator p.op = some it ∧ r = some it := by
  induction params generalizing acc with
  | nil => intro q hq; simp at hq
  | cons p rest ih =>
    intro q hq
    simp only [viewKeyIndexLoop] at h
    split at h
    · cases h
    · rcases hfo : IndexType.for_operator p.op with _ | it
      · rw [hfo] at h
        dsimp only at h
        cases h
      · rw [hfo] at h
        dsimp only at h
        rcases hacc : acc with _ | it0
        · rw [hacc] at h
          dsimp only at h
          rcases List.mem_cons.mp hq with rfl | hqr
          · exact ⟨it, hfo, viewKeyIndexLoop_ok_acc rest hasAggs it r h⟩
          · exact ih (some it) h q hqr
        · rw [hacc] at h
          dsimp only at h
          split at h
          case isTrue hiteq =>
            rcases List.mem_cons.mp hq with rfl | hqr
            · have hr := viewKeyIndexLoop_ok_acc rest hasAggs it0 r h
              exact ⟨it, hfo, by rw [hr, hiteq]⟩
            · exact ih (some it0) h q hqr
          case isFalse hne => cases h

lemma viewKeyIndexLoop_error_unsupported (params : List Parameter)
    (hasAggs : Bool) (acc : Option IndexType) (e : ReadySetError)
    (h : viewKeyIndexLoop params hasAggs acc = .error e) :
    ∃ msg, e = .Unsupported msg := by
  induction params generalizing acc with
  | nil => cases h
  | cons p rest ih =>
    simp only [viewKeyIndexLoop] at h
    split at h
    · cases h; exact ⟨_, rfl⟩
    · split at h
      · split at h
        · exact ih _ h
        · split at h
          · exact ih _ h
          · cases h; exact ⟨_, rfl⟩
      · cases h; exact ⟨_, rfl⟩

lemma viewKeyIndexLoop_from_none (params : List Parameter) (hasAggs : Bool)
    (it0 : IndexType) (hne : params ≠ [])
    (hsame : ∀ p ∈ params, IndexType.for_operator p.op = some it0)
    (hagg : hasAggs = true → ∀ p ∈ params, p.op = BinaryOperator.Equal) :
    viewKeyIndexLoop params hasAggs Option.none = .ok (some it0) := by
  cases params with
  | nil => exact absurd rfl hne
  | cons p rest =>
    have hp := hsame p (by simp)
    have hnotagg : ¬ (hasAggs = true ∧ p.op ≠ BinaryOperator.Equal) := by
      rintro ⟨ha, hne2⟩
      exact hne2 (hagg ha p (by simp))
    simp only [viewKeyIndexLoop, if_neg hnotagg, hp]
    exact viewKeyIndexLoop_ok_of_same rest hasAggs it0
      (fun q hq => hsame q (by simp [hq]))
      (fun ha q hq => hagg ha q (by simp [hq]))

lemma view_key_of_loop_ok (qg : QueryGraph) (hne : qg.parameters ≠ [])
    (it : IndexType)
    (hloop : viewKeyIndexLoop qg.parameters qg.has_aggregates Option.none =
      .ok (some it)) :
    qg.view_key = .ok
      ⟨qg.parameters.map (fun p => (⟨p.col.table, p.col.name⟩, p.placeholder_idx)),
        it⟩ := by
  have hie : qg.parameters.isEmpty = false := by
    cases hq : qg.parameters with
    | nil => exact absurd hq hne
    | cons a l => simp
  simp [QueryGraph.view_key, hie, hloop]

lemma view_key_of_loop_error (qg : QueryGraph) (hne : qg.parameters ≠ [])
    (e : ReadySetError)
    (hloop : viewKeyIndexLoop qg.parameters qg.has_aggregates Option.none =
      .error e) :
    qg.view_key = .error e := by
  have hie : qg.parameters.isEmpty = false := by
    cases hq : qg.parameters with
    | nil => exact absurd hq hne
    | cons a l => simp
  simp [QueryGraph.view_key, hie, hloop]

/-- A query graph mixing an equality and a range parameter on one
relation. -/
def qgMixed : QueryGraph :=
  ⟨[("t", ⟨"t", [], [],
    [⟨⟨"id", some "t"⟩, .Equal, Option.none⟩,
     ⟨⟨"x", some "t"⟩, .Greater, Option.none⟩]⟩)]⟩

/-- C4 counterexample: the claim says a parameter list mixing equality and
range operators produces a hash-map index with the range column last and
marked.  The source instead rejects the mix: `view_key` on a query graph
with parameters `id = ?` and `x > ?` returns
`Unsupported("Conflicting binary operators in query")` and no `ViewKey` at
all (query_graph.rs line 282). -/
theorem C4_view_key_counterexample :
    QueryGraph.view_key qgMixed =
      .error (.Unsupported "Conflicting binary operators in query") ∧
      ∀ vk : ViewKey, QueryGraph.view_key qgMixed ≠ .ok vk := by
  refine ⟨rfl, ?_⟩
  intro vk h
  rw [show QueryGraph.view_key qgMixed =
      .error (.Unsupported "Conflicting binary operators in query") from rfl] at h
  cases h

/-- C4 (amended): for a query graph with at least one parameter, if every
parameter's operator is equality the index type is a hash map (aggregates or
not); if the query has no aggregates and every parameter's operator is a
range operator the index type is ordered; and when the parameters mix
equality and range operators the result is the `Unsupported` error (the
source treats the mix as conflicting operators; there is no mixed hash-map
key). -/
theorem C4_view_key_index_type (qg : QueryGraph) (hne : qg.parameters ≠ []) :
    ((∀ p ∈ qg.parameters, p.op = BinaryOperator.Equal) →
      qg.view_key = .ok
        ⟨qg.parameters.map (fun p => (⟨p.col.table, p.col.name⟩, p.placeholder_idx)),
          .HashMap⟩) ∧
    (qg.has_aggregates = false →
      (∀ p ∈ qg.parameters, IndexType.for_operator p.op = some .BTreeMap) →
      qg.view_key = .ok
        ⟨qg.parameters.map (fun p => (⟨p.col.table, p.col.name⟩, p.placeholder_idx)),
          .BTreeMap⟩) ∧
    ((∃ p ∈ qg.parameters, p.op = BinaryOperator.Equal) →
      (∃ p ∈ qg.parameters, IndexType.for_operator p.op = some .BTreeMap) →
      ∃ msg, qg.view_key = .error (.Unsupported msg)) := by
  refine ⟨?_, ?_, ?_⟩
  · intro hall
    refine view_key_of_loop_ok qg hne .HashMap ?_
    exact viewKeyIndexLoop_from_none qg.parameters qg.has_aggregates .HashMap hne
      (fun p hp => by rw [hall p hp]; rfl) (fun _ => hall)
  · intro hagg hall
    refine view_key_of_loop_ok qg hne .BTreeMap ?_
    exact viewKeyIndexLoop_from_none qg.parameters qg.has_aggregates .BTreeMap hne
      hall (fun ha => absurd (hagg ▸ ha) (by simp))
  · rintro ⟨p, hp, hpe⟩ ⟨q, hq, hqr⟩
    rcases hl : viewKeyIndexLoop qg.parameters qg.has_aggregates Option.none
        with e | r
    · obtain ⟨msg, hmsg⟩ :=
        viewKeyIndexLoop_error_unsupported qg.parameters qg.has_aggregates
          Option.none e hl
      exact ⟨msg, by rw [view_key_of_loop_error qg hne e hl, hmsg]⟩
    · obtain ⟨it1, hfo1, hr1⟩ :=
        viewKeyIndexLoop_ok_all qg.parameters qg.has_aggregates Option.none r hl
          p hp
      obtain ⟨it2, hfo2, hr2⟩ :=
        viewKeyIndexLoop_ok_all qg.parameters qg.has_aggregates Option.none r hl
          q hq
      rw [hpe] at hfo1
      have h1 : it1 = .HashMap := by
        have := hfo1
        simp [IndexType.for_operator] at this
        exact this.symm
      have h2 : it2 = .BTreeMap := by
        rw [hqr] at hfo2
        have := hfo2
        simp at this
        exact this.symm
      rw [hr1, h1] at hr2
      rw [h2] at hr2
      cases hr2

/-- A query graph whose two parameters are both equalities. -/
def qgEq : QueryGraph :=
  ⟨[("t", ⟨"t", [], [],
    [⟨⟨"id", some "t"⟩, .Equal, Option.none⟩,
     ⟨⟨"y", some "t"⟩, .Equal, some 1⟩]⟩)]⟩

/-- Witness for `C4_view_key_index_type`: the all-equality query graph gets
a hash-map view key over its two parameter columns. -/
theorem C4_view_key_index_type_witness :
    QueryGraph.view_key qgEq = .ok
      ⟨(QueryGraph.parameters qgEq).map
          (fun p => (⟨p.col.table, p.col.name⟩, p.placeholder_idx)),
        .HashMap⟩ :=
  (C4_view_key_index_type qgEq (by decide)).1 (by decide)
